import Mathlib

/-!
Verification of the node-whatsapi client library core.

This file gives a shallow embedding, in Lean 4, of the parts of the
library that the checked properties are about: the RC4-HMAC keystream
(`KeyStream` in the keystream module), PBKDF2 key derivation and the two
key-installation paths (`generateKeys` / `initKeys` / `createAuthData`),
the pre-login send queue (`sendMessageNode` / `flushQueue`), message-id
and JID construction (`nextMessageId` / `createJID`), the inbound node
dispatcher (`processNode`), the message processors (`Aggregate`, `Text`,
`Location`, media matchers), the binary node codec, and the end-to-end
encryption bridge (`getKeys` / `processGetKeysResponse`).

Pure functions of the JavaScript source are translated into Lean
functions; stateful methods are translated into explicit state-passing
functions; side effects (writes to the transport, event emissions,
callback invocations) are collected into explicit ordered traces.
External primitives that the source obtains from outside the repository
(node's `crypto` HMAC-SHA1 and PBKDF2 implementations, the `axolotl`
library) are kept abstract as function parameters.  JavaScript numbers
that may be `NaN` in the modelled paths are embedded as an explicit
`JsNum` type over `ℚ`.

The file is organised as a block of definitions followed by a block of
theorems.
-/

namespace NodeWhatsApi

/-! # Definitions -/

/-! ## Protocol nodes

Modelled from the spec: the in-memory protocol tree type `Node` lives in
`protocol.js`, which is not part of the provided sources (only its
callers are).  Per §3 of the spec, a node has a tag, an ordered
string→string attribute mapping, a sequence of children and at most one
opaque byte payload.  Payload bytes are modelled as natural numbers;
`attr` / `childByTag` / `childAt` mirror the `attribute` / `child`
accessors used throughout the source (`attribute` returns the value or
nothing, `child` accepts a tag name or an index). -/
inductive Node where
  | node (tag : String) (attrs : List (String × String))
      (children : List Node) (payload : List Nat)

namespace Node

/-- The tag of a node. -/
def tag : Node → String
  | node t _ _ _ => t

/-- The ordered attribute list of a node. -/
def attrs : Node → List (String × String)
  | node _ a _ _ => a

/-- The child list of a node. -/
def children : Node → List Node
  | node _ _ c _ => c

/-- The opaque payload of a node (`data()` in the source). -/
def payload : Node → List Nat
  | node _ _ _ p => p

/-- Attribute lookup (`node.attribute(name)` in the source): the value of
the first binding of the key, or nothing when the key is absent. -/
def attr (n : Node) (k : String) : Option String :=
  (n.attrs.find? (fun p => p.1 = k)).map Prod.snd

/-- Child lookup by tag (`node.child(name)` in the source): the first
child whose tag is the given name. -/
def childByTag (n : Node) (t : String) : Option Node :=
  n.children.find? (fun c => c.tag = t)

/-- Child lookup by index (`node.child(i)` in the source). -/
def childAt (n : Node) (i : Nat) : Option Node :=
  n.children.get? i

/-- JavaScript truthiness of an attribute value: present and non-empty. -/
def attrTruthy (n : Node) (k : String) : Bool :=
  match n.attr k with
  | some v => v ≠ ""
  | none => false

end Node

/-- UTF-8-level bytes of a string, modelled as the codepoints of its
characters (used for payloads built from JavaScript strings). -/
def strBytes (s : String) : List Nat :=
  s.data.map Char.toNat

/-! ## Decimal rendering of JavaScript numbers

`nextMessageId` converts the timestamp and the counter to their decimal
string form (the `Array.prototype.join` coercion).  The decimal digits
are developed here together with the two facts the id-uniqueness proof
needs: the rendering is injective and never contains a dash. -/

/-- Fuelled little-endian decimal digit extraction; `fuel ≥ n` is
enough, and the structural recursion keeps the definition computable by
the kernel. -/
def decDigitsGo : Nat → Nat → List Nat
  | 0, _ => []
  | f + 1, n => if n = 0 then [] else n % 10 :: decDigitsGo f (n / 10)

/-- Little-endian decimal digits of a natural number (empty for zero). -/
def decDigitsLE (n : Nat) : List Nat :=
  decDigitsGo n n

/-- Value of a little-endian digit list. -/
def valLE (ds : List Nat) : Nat :=
  ds.foldr (fun d acc => d + 10 * acc) 0

/-- The decimal digit characters. -/
def digitChar : Nat → Char
  | 0 => '0' | 1 => '1' | 2 => '2' | 3 => '3' | 4 => '4'
  | 5 => '5' | 6 => '6' | 7 => '7' | 8 => '8' | _ => '9'

/-- Inverse of `digitChar` on genuine digit characters. -/
def charDigit (c : Char) : Nat :=
  if c = '0' then 0 else if c = '1' then 1 else if c = '2' then 2
  else if c = '3' then 3 else if c = '4' then 4 else if c = '5' then 5
  else if c = '6' then 6 else if c = '7' then 7 else if c = '8' then 8
  else 9

/-- Decimal string of a natural number (the JavaScript number-to-string
coercion for the non-negative integers the source produces). -/
def natToStr (n : Nat) : String :=
  if n = 0 then "0" else String.mk ((decDigitsLE n).reverse.map digitChar)

/-! ## `createJID` (whatsapi.js / keystore.js)

`createJID(msisdn)`: return the input unchanged when it already contains
an at sign; otherwise append the group server when the input contains a
dash, else the user server. -/

/-- Whether a string contains a character (the source's
`indexOf(c) !== -1`). -/
def containsChar (s : String) (c : Char) : Bool :=
  s.data.contains c

/-- `WhatsApi.prototype.createJID`, with the configured servers passed
explicitly (`config.server`, `config.gserver`). -/
def createJID (server gserver : String) (msisdn : String) : String :=
  if containsChar msisdn '@' then msisdn
  else
    let affix := if containsChar msisdn '-' then gserver else server
    msisdn ++ "@" ++ affix

/-- The default server of `WhatsApi.prototype.defaultConfig`. -/
def defaultServer : String := "s.whatsapp.net"

/-- The default group server of `WhatsApi.prototype.defaultConfig`. -/
def defaultGServer : String := "g.us"

/-! ## `nextMessageId` (whatsapi.js / keystore.js)

`[prefix, common.tstamp(), ++this.messageId].join('-')`: the counter is
pre-incremented, so the produced id carries `counter + 1` and the new
counter state is `counter + 1`. -/

/-- `WhatsApi.prototype.nextMessageId`: takes the id prefix, the current
unix timestamp (`common.tstamp()`) and the current `this.messageId`
counter; returns the id string and the updated counter. -/
def nextMessageId (pre : String) (now : Nat) (counter : Nat) : String × Nat :=
  (pre ++ "-" ++ natToStr now ++ "-" ++ natToStr (counter + 1), counter + 1)

/-! ## RC4 engine

Modelled from the spec: the keystream module constructs its cipher from
`require('./rc4')`, a module that is not part of the provided sources.
Per §4.3 / §8 of the spec the engine is plain RC4 with 768 bytes of
keystream discarded before first use, and `cipher(buffer, offset,
length)` enciphers the byte range `[offset, offset+length)` of the
buffer in place, leaving the rest untouched. -/

/-- RC4 engine state: the 256-byte permutation and the two indices. -/
structure Rc4State where
  perm : List Nat
  i : Nat
  j : Nat
deriving DecidableEq

/-- Swap two positions of a byte list. -/
def listSwap (l : List Nat) (a b : Nat) : List Nat :=
  (l.set a (l.getD b 0)).set b (l.getD a 0)

/-- RC4 key scheduling over a non-empty key. -/
def rc4Init (key : List Nat) : Rc4State :=
  let kl := if key.length = 0 then 1 else key.length
  let step := fun (acc : List Nat × Nat) (i : Nat) =>
    let j := (acc.2 + acc.1.getD i 0 + key.getD (i % kl) 0) % 256
    (listSwap acc.1 i j, j)
  let init := (List.range 256).foldl step (List.range 256, 0)
  { perm := init.1, i := 0, j := 0 }

/-- One RC4 keystream step: returns the updated state and the keystream
byte. -/
def rc4Step (st : Rc4State) : Rc4State × Nat :=
  let i := (st.i + 1) % 256
  let j := (st.j + st.perm.getD i 0) % 256
  let perm := listSwap st.perm i j
  let k := perm.getD ((perm.getD i 0 + perm.getD j 0) % 256) 0
  ({ perm := perm, i := i, j := j }, k)

/-- Discard `n` keystream bytes (`engine.drop(0x300)` in the source). -/
def rc4Drop (st : Rc4State) : Nat → Rc4State
  | 0 => st
  | n + 1 => rc4Drop (rc4Step st).1 n

/-- XOR each byte of a list with successive keystream bytes. -/
def rc4Bytes (st : Rc4State) : List Nat → Rc4State × List Nat
  | [] => (st, [])
  | b :: rest =>
    let (st1, k) := rc4Step st
    let (st2, out) := rc4Bytes st1 rest
    (st2, (b ^^^ k) :: out)

/-- `engine.cipher(buffer, offset, length)`: encipher the byte range
`[offset, offset+length)`, leaving the surrounding bytes unchanged. -/
def rc4Cipher (st : Rc4State) (buf : List Nat) (offset length : Nat) :
    Rc4State × List Nat :=
  let mid := (buf.drop offset).take length
  let (st2, out) := rc4Bytes st mid
  (st2, buf.take offset ++ out ++ buf.drop (offset + length))

/-! ## `KeyStream` (keystream module, part_000)

`KeyStream(key, macKey)` keeps an RC4 engine initialised from the cipher
key with 768 bytes dropped, the MAC key, and a sequence counter starting
at 0.  `computeMac` feeds the selected buffer range and the big-endian
32-bit sequence number to HMAC-SHA1 and post-increments the sequence.
HMAC-SHA1 itself is node's `crypto` library, kept abstract as the
function parameter `hmac`. -/

/-- The state of one directional `KeyStream`. -/
structure KeyStream where
  seq : Nat
  rc4 : Rc4State
  macKey : List Nat
deriving DecidableEq

/-- The `KeyStream` constructor: drop-768 RC4 engine from the cipher
key, stored MAC key, sequence 0. -/
def mkKeyStream (key macKey : List Nat) : KeyStream :=
  { seq := 0, rc4 := rc4Drop (rc4Init key) 0x300, macKey := macKey }

/-- The four sequence bytes `[seq >> 24, (seq >> 16)%256, (seq >> 8)%256,
seq%256]` appended to the MAC input (`Buffer` truncates each entry to a
byte). -/
def seqBytes (seq : Nat) : List Nat :=
  [seq / 2 ^ 24 % 256, seq / 2 ^ 16 % 256, seq / 2 ^ 8 % 256, seq % 256]

/-- `KeyStream.prototype.computeMac`: HMAC over
`buffer[offset..offset+length) || seqBytes`, post-incrementing the
sequence.  Returns the digest and the updated keystream. -/
def computeMac (hmac : List Nat → List Nat → List Nat) (ks : KeyStream)
    (buf : List Nat) (offset length : Nat) : List Nat × KeyStream :=
  (hmac ks.macKey (((buf.drop offset).take length) ++ seqBytes ks.seq),
    { ks with seq := ks.seq + 1 })

/-- `KeyStream.prototype.encodeMessage`: encipher the range, compute the
MAC over the ciphertext, splice the first 4 MAC bytes in at `macOffset`. -/
def encodeMessage (hmac : List Nat → List Nat → List Nat) (ks : KeyStream)
    (buf : List Nat) (macOffset offset length : Nat) : KeyStream × List Nat :=
  let (rc4st, data) := rc4Cipher ks.rc4 buf offset length
  let (mac, ks1) := computeMac hmac { ks with rc4 := rc4st } data offset length
  (ks1, data.take macOffset ++ mac.take 4 ++ data.drop (macOffset + 4))

/-- The error the spec assigns to a MAC verification failure. -/
inductive MacError where
  | macMismatch
deriving DecidableEq

/-- `KeyStream.prototype.decodeMessage`: compute the MAC over the
received range (advancing the sequence) and RC4-decipher the range.  The
`Except MacError` result type mirrors the `MAC mismatch` exception of
the reference implementation quoted in the source's comment; the live
body never compares the computed MAC with the received bytes, so no
execution path produces the error. -/
def decodeMessage (hmac : List Nat → List Nat → List Nat) (ks : KeyStream)
    (buf : List Nat) (macOffset offset length : Nat) :
    Except MacError (KeyStream × List Nat) :=
  let (_, ks1) := computeMac hmac ks buf offset length
  let (rc4st, out) := rc4Cipher ks1.rc4 buf offset length
  Except.ok ({ ks1 with rc4 := rc4st }, out)

/-! ## PBKDF2 key derivation (part_000, whatsapi.js)

`pbkdf2(password, salt, iterations, length)` wraps node's
`crypto.pbkdf2Sync`, defaulting falsy iteration and length arguments to
16 and 20.  The underlying PBKDF2-SHA1 primitive is kept abstract as the
function parameter `impl` taking the password, the salt, the iteration
count and the requested output length. -/

/-- PBKDF2 implementation signature: password, salt, iterations,
requested length. -/
abbrev Pbkdf2Impl := List Nat → List Nat → Nat → Nat → List Nat

/-- The `pbkdf2` wrapper of the keystream module, with its
`iterations || 16` and `length || 20` defaulting. -/
def pbkdf2 (impl : Pbkdf2Impl) (password salt : List Nat)
    (iterations length : Nat) : List Nat :=
  impl password salt (if iterations = 0 then 16 else iterations)
    (if length = 0 then 20 else length)

/-- The cipher/MAC key material of the writer and reader keystreams. -/
structure KeyMaterial where
  writerCipher : List Nat
  writerMac : List Nat
  readerCipher : List Nat
  readerMac : List Nat
deriving DecidableEq

/-- `WhatsApi.prototype.generateKeys`: for `j` in 1..4, one PBKDF2 run
over the base64-decoded password with salt `nonce || byte(j)`, iteration
count 2 and length 20.  `password` is passed already base64-decoded. -/
def generateKeys (impl : Pbkdf2Impl) (password nonce : List Nat) :
    List (List Nat) :=
  [1, 2, 3, 4].map (fun j => pbkdf2 impl password (nonce ++ [j]) 2 20)

/-- `WhatsApi.prototype.initKeys` (fresh-challenge path): writer
keystream from outputs 1 and 2, reader keystream from outputs 3 and 4 of
`generateKeys`. -/
def initKeysMaterial (impl : Pbkdf2Impl) (password nonce : List Nat) :
    KeyMaterial :=
  let keys := generateKeys impl password nonce
  { writerCipher := keys.getD 0 []
    writerMac := keys.getD 1 []
    readerCipher := keys.getD 2 []
    readerMac := keys.getD 3 [] }

/-- The key material of `WhatsApi.prototype.createAuthData`
(cached-challenge one-round-trip login path): one PBKDF2 run over the
base64-decoded password with the cached challenge as salt, iteration
count 16 and length 20; the writer keystream is built from the
single-byte buffers `[key[0]]` and `[key[1]]`, the reader keystream from
`[key[2]]` and `[key[3]]`. -/
def createAuthDataMaterial (impl : Pbkdf2Impl) (password challenge : List Nat) :
    KeyMaterial :=
  let key := pbkdf2 impl password challenge 16 20
  { writerCipher := [key.getD 0 0]
    writerMac := [key.getD 1 0]
    readerCipher := [key.getD 2 0]
    readerMac := [key.getD 3 0] }

/-- The key derivation exactly as the claim states it (for comparison
with the source's two paths): four 20-byte outputs of PBKDF2-SHA1 with
iteration count 2 over the base64-decoded password, using
`nonce || byte(j)` as salt for `j` in 1..4; writer keystream from
outputs 1 (cipher) and 2 (mac), reader keystream from outputs 3 and 4. -/
def deriveKeysClaim (impl : Pbkdf2Impl) (password nonce : List Nat) :
    KeyMaterial :=
  { writerCipher := impl password (nonce ++ [1]) 2 20
    writerMac := impl password (nonce ++ [2]) 2 20
    readerCipher := impl password (nonce ++ [3]) 2 20
    readerMac := impl password (nonce ++ [4]) 2 20 }

/-- A stand-in PBKDF2 implementation that records the iteration count in
every output byte (used to exhibit the divergence of the two paths). -/
def demoPbkdf2 : Pbkdf2Impl :=
  fun _ _ iterations length => List.replicate length iterations

/-! ## Pre-login send queue (keystore.js)

`sendMessageNode(dest, node, msgid)`: before login, push the pair of destination and node on
the queue and return; after login, build the `message` node with
attributes `to` (via `createJID`), `type` (`text` for a `body` child,
else `media`), `id` (the given id, or a generated `message-…` id) and
`t` (the timestamp), wrap the child and hand it to `sendNode`.
`flushQueue` empties the queue and re-sends each entry in order; the
`success` branch of `processNode` sets `loggedIn` and flushes.  The
state carries the ordered list of nodes handed to the writer. -/

/-- The session state the send path touches. -/
structure SendState where
  loggedIn : Bool
  messageId : Nat
  queue : List (String × Node)
  sent : List Node

/-- `sendNode`: hand a node to the writer (recorded in order). -/
def sendNodeS (st : SendState) (n : Node) : SendState :=
  { st with sent := st.sent ++ [n] }

/-- `WhatsApi.prototype.sendMessageNode` (keystore.js revision).  A
`none` or empty `msgid` is falsy in the source and triggers id
generation. -/
def sendMessageNode (server gserver : String) (now : Nat) (st : SendState)
    (dest : String) (n : Node) (msgid : Option String) : SendState :=
  if !st.loggedIn then
    { st with queue := st.queue ++ [(dest, n)] }
  else
    let gen := nextMessageId "message" now st.messageId
    let idc : String × Nat :=
      match msgid with
      | some m => if m = "" then gen else (m, st.messageId)
      | none => gen
    let attributes := [("to", createJID server gserver dest),
                       ("type", if n.tag = "body" then "text" else "media"),
                       ("id", idc.1),
                       ("t", natToStr now)]
    sendNodeS { st with messageId := idc.2 }
      (Node.node "message" attributes [n] [])

/-- `WhatsApi.prototype.flushQueue`: take the queue, empty it, and
re-send each entry in original order. -/
def flushQueue (server gserver : String) (now : Nat) (st : SendState) :
    SendState :=
  st.queue.foldl
    (fun acc e => sendMessageNode server gserver now acc e.1 e.2 none)
    { st with queue := [] }

/-- The `isSuccess` branch of `processNode` as far as the send queue is
concerned: set `loggedIn` and flush the queue. -/
def processSuccessSend (server gserver : String) (now : Nat)
    (st : SendState) : SendState :=
  flushQueue server gserver now { st with loggedIn := true }

/-- `WhatsApi.prototype.sendMessage`: wrap the text in a `body` node
with the text as payload. -/
def sendMessage (server gserver : String) (now : Nat) (st : SendState)
    (dest text : String) : SendState :=
  sendMessageNode server gserver now st dest
    (Node.node "body" [] [] (strBytes text)) none

/-- The message node produced for one queue entry when the id is
generated from counter state `c`. -/
def mkMessageNode (server gserver : String) (now : Nat) (dest : String)
    (n : Node) (c : Nat) : Node :=
  Node.node "message"
    [("to", createJID server gserver dest),
     ("type", if n.tag = "body" then "text" else "media"),
     ("id", (nextMessageId "message" now c).1),
     ("t", natToStr now)]
    [n] []

/-- The nodes a flush of the given queue entries sends, starting from
counter state `c`: one message node per entry, in order, with
consecutive counters. -/
def flushSpec (server gserver : String) (now : Nat) (c : Nat) :
    List (String × Node) → List Node
  | [] => []
  | e :: rest =>
    mkMessageNode server gserver now e.1 e.2 c ::
      flushSpec server gserver now (c + 1) rest

/-! ## JavaScript numbers and the last-seen branch (part_004)

The `isLastSeen` branch of `processNode` coerces the `seconds` attribute
to a number, computes `millisecondsAgo` from its own hoisted (still
`undefined`) value, builds a `Date` from `Date.now() - millisecondsAgo`,
and invokes the tracked callback with `secondsAgo: secondsAgo / 1000`.
JavaScript numbers are modelled exactly as either `NaN` or a rational;
`undefined` under arithmetic coerces to `NaN`. -/

/-- A JavaScript number: `NaN` or an exact rational. -/
inductive JsNum where
  | nan
  | num (q : ℚ)
deriving DecidableEq

/-- JavaScript multiplication (NaN-propagating). -/
def JsNum.mul : JsNum → JsNum → JsNum
  | num a, num b => num (a * b)
  | _, _ => nan

/-- JavaScript subtraction (NaN-propagating). -/
def JsNum.sub : JsNum → JsNum → JsNum
  | num a, num b => num (a - b)
  | _, _ => nan

/-- JavaScript division (NaN-propagating; division by zero modelled as
the non-rational result). -/
def JsNum.div : JsNum → JsNum → JsNum
  | num a, num b => if b = 0 then nan else num (a / b)
  | _, _ => nan

/-- The object the last-seen branch passes to the tracked callback: the
sender, the constructed date (by its millisecond timestamp; `NaN` is an
invalid date) and the `secondsAgo` field. -/
structure LastSeenArg where
  fromJid : String
  date : JsNum
  secondsAgo : JsNum
deriving DecidableEq

/-- The `isLastSeen` branch of `processNode` (part_004): `now` is
`Date.now()` in milliseconds, `seconds` the numeric value of the
`seconds` attribute of the `query` child. -/
def processLastSeen (now : JsNum) (sender : String) (seconds : JsNum) :
    LastSeenArg :=
  let secondsAgo := seconds
  let millisecondsAgo := JsNum.mul JsNum.nan (JsNum.num 1000)
  let timestamp := JsNum.sub now millisecondsAgo
  let date := timestamp
  { fromJid := sender, date := date,
    secondsAgo := JsNum.div secondsAgo (JsNum.num 1000) }

/-- `WhatsApi.prototype.executeCallback` (keystore.js): call every
callback registered under the id, in registration order, and remove
those entries; returns the invoked callbacks and the remaining
collection. -/
def executeCallback {α : Type} (coll : List (String × α)) (id : String) :
    List α × List (String × α) :=
  ((coll.filter (fun it => it.1 = id)).map Prod.snd,
    coll.filter (fun it => ¬(it.1 = id)))

/-! ## Message processors (processors.js)

`Aggregate.process` walks the matcher list in order and runs
`processor.process(node)` for **every** matcher whose `match(node)`
holds — there is no first-match cut.  The built-in list is
`[Text, Location, Image, Video, Audio, Vcard]`; each emission is
identified here by its event name. -/

/-- The built-in matcher kinds. -/
inductive Matcher where
  | text | location | image | video | audio | vcard
deriving DecidableEq

/-- `Media.prototype.match` for a given media type: truthy `notify`
attribute and a `media` child whose `type` attribute equals the type. -/
def mediaMatch (n : Node) (t : String) : Bool :=
  n.attrTruthy "notify" &&
    (match n.childByTag "media" with
     | some med => med.attr "type" = some t
     | none => false)

/-- The `match` predicate of each matcher.  `Text`: truthy `notify`,
`type == "text"` and a `body` child; `Location`: truthy `notify` and a
`media` child of type `location`; the media matchers use their type. -/
def matcherMatches (m : Matcher) (n : Node) : Bool :=
  match m with
  | .text =>
    n.attrTruthy "notify" && (n.attr "type" = some "text") &&
      (n.childByTag "body").isSome
  | .location => mediaMatch n "location"
  | .image => mediaMatch n "image"
  | .video => mediaMatch n "video"
  | .audio => mediaMatch n "audio"
  | .vcard => mediaMatch n "vcard"

/-- The event each matcher's `process` emits. -/
def matcherEvent : Matcher → String
  | .text => "message"
  | .location => "receivedLocation"
  | .image => "receivedImage"
  | .video => "receivedVideo"
  | .audio => "message.audio"
  | .vcard => "receivedVcard"

/-- `Aggregate.prototype.process`: run every matching processor in list
order; the result is the ordered list of emitted events. -/
def aggregateProcess (l : List Matcher) (n : Node) : List String :=
  l.foldl (fun acc m =>
    if matcherMatches m n then acc ++ [matcherEvent m] else acc) []

/-- `createProcessor()`: the built-in matcher list, in order. -/
def builtinMatchers : List Matcher :=
  [.text, .location, .image, .video, .audio, .vcard]

/-- A message node carrying both a `body` child and a location `media`
child: both the `Text` and the `Location` matcher accept it. -/
def doubleMatchNode : Node :=
  Node.node "message"
    [("from", "31000000000@s.whatsapp.net"), ("id", "abc"),
     ("type", "text"), ("t", "1700000000"), ("notify", "Bob")]
    [Node.node "body" [] [] (strBytes "hi"),
     Node.node "media" [("type", "location"), ("latitude", "52.0"),
       ("longitude", "4.0")] [] []]
    []

/-- A plain text message node: only the `Text` matcher accepts it. -/
def textOnlyNode : Node :=
  Node.node "message"
    [("from", "31000000000@s.whatsapp.net"), ("id", "abc"),
     ("type", "text"), ("t", "1700000000"), ("notify", "Bob")]
    [Node.node "body" [] [] (strBytes "hi")]
    []

/-! ## The inbound node dispatcher (part_004 `processNode`)

`processNode` is embedded as a function from the inbound node to the
ordered trace of its side effects: nodes handed to the writer
(`sendNode`), event emissions and tracked-callback invocations.  The
node-shape predicates (`isError`, `isNotification`, …) live in the
absent `protocol.js` and are modelled from the spec's dispatch table
(§4.4): matching is by tag plus attribute/child shape.  The branch
structure, the actions of each branch and their order are translated
from the source.  The authenticated `response` payload of the challenge
branch (built by `createAuthResposeNode` from the writer keystream) and
the queued sends flushed by the success branch are supplied by the
caller. -/

/-- One observable side effect of processing a node. -/
inductive Action where
  | push (n : Node)
  | emitE (name : String)
  | invoke (id : String)

/-- Spec dispatch table: an `iq` carrying an `error` child. -/
def isError (n : Node) : Bool :=
  n.tag = "iq" && (n.childByTag "error").isSome

/-- Spec dispatch table: inbound `message` nodes are acknowledged with a
receipt. -/
def shouldBeReplied (n : Node) : Bool :=
  n.tag = "message"

/-- Spec dispatch table: a `notification` node. -/
def isNotification (n : Node) : Bool :=
  n.tag = "notification"

/-- Spec dispatch table: a `receipt` node (client acknowledgement). -/
def isReceipt (n : Node) : Bool :=
  n.tag = "receipt"

/-- Spec dispatch table: an `ack` node (server acknowledgement). -/
def isAck (n : Node) : Bool :=
  n.tag = "ack"

/-- Spec dispatch table: the login `challenge` node. -/
def isChallenge (n : Node) : Bool :=
  n.tag = "challenge"

/-- Spec dispatch table: the login `success` node. -/
def isSuccess (n : Node) : Bool :=
  n.tag = "success"

/-- Spec dispatch table: the login `failure` node. -/
def isFailure (n : Node) : Bool :=
  n.tag = "failure"

/-- Spec dispatch table: an `ib` node with an `offline` count child. -/
def isOfflineCount (n : Node) : Bool :=
  n.tag = "ib" && (n.childByTag "offline").isSome

/-- Spec dispatch table: a `presence` node. -/
def isPresence (n : Node) : Bool :=
  n.tag = "presence"

/-- Spec dispatch table: a dirty-presence `ib` node. -/
def isDirtyPresence (n : Node) : Bool :=
  n.tag = "ib" && (n.childByTag "dirty").isSome

/-- Spec dispatch table: an `iq` with a `query` child carrying a
`seconds` attribute (last-seen reply). -/
def isLastSeen (n : Node) : Bool :=
  n.tag = "iq" &&
    (match n.childByTag "query" with
     | some q => (q.attr "seconds").isSome
     | none => false)

/-- Spec dispatch table: a server ping. -/
def isPing (n : Node) : Bool :=
  n.tag = "iq" && (n.childByTag "ping").isSome

/-- Spec dispatch table: an `iq` with a `groups` list child. -/
def isGroupList (n : Node) : Bool :=
  n.tag = "iq" && (n.childByTag "groups").isSome

/-- Spec dispatch table: an `iq` announcing a newly created group. -/
def isGroupAdd (n : Node) : Bool :=
  n.tag = "iq" && (n.childByTag "group").isSome

/-- Spec dispatch table: an `iq` with group info and participants. -/
def isGroupInfo (n : Node) : Bool :=
  n.tag = "iq" && (n.childByTag "group").isSome

/-- Spec dispatch table: an `iq` reporting changed group participants. -/
def isChangeGroupParticipants (n : Node) : Bool :=
  n.tag = "iq" &&
    (match n.childAt 0 with
     | some c =>
       c.tag = "add" || c.tag = "remove" || c.tag = "promote" ||
         c.tag = "demote"
     | none => false)

/-- Spec dispatch table: an `iq` confirming groups were left. -/
def isLeaveGroup (n : Node) : Bool :=
  n.tag = "iq" && (n.childByTag "leave").isSome

/-- Spec dispatch table: an `iq` with a `media` (or `duplicate`) upload
slot child. -/
def isMediaReady (n : Node) : Bool :=
  n.tag = "iq" &&
    ((n.childByTag "media").isSome || (n.childByTag "duplicate").isSome)

/-- Spec dispatch table: an `iq` with a `picture` child. -/
def isProfilePicture (n : Node) : Bool :=
  n.tag = "iq" && (n.childByTag "picture").isSome

/-- Spec dispatch table: an `iq` with `status` children (statuses
query). -/
def isGetStatus (n : Node) : Bool :=
  n.tag = "iq" && (n.childByTag "status").isSome

/-- Spec dispatch table: the reply to a status update. -/
def isSendStatus (n : Node) : Bool :=
  n.tag = "iq" && (n.attr "type" = some "result") &&
    n.children.isEmpty

/-- Spec dispatch table: a plain inbound `message` node. -/
def isMessage (n : Node) : Bool :=
  n.tag = "message"

/-- Spec dispatch table: a `chatstate` typing node. -/
def isTyping (n : Node) : Bool :=
  n.tag = "chatstate"

/-- Spec dispatch table: an `iq` with a `sync` child. -/
def isSync (n : Node) : Bool :=
  n.tag = "iq" && (n.childByTag "sync").isSome

/-- Spec dispatch table: an `iq` with a `props` child. -/
def isProperties (n : Node) : Bool :=
  n.tag = "iq" && (n.childByTag "props").isSome

/-- Spec dispatch table: an `iq` with a `pricing` child. -/
def isServicePricing (n : Node) : Bool :=
  n.tag = "iq" && (n.childByTag "pricing").isSome

/-- Spec dispatch table: an `iq` with a `privacy` child (query reply). -/
def isGetPrivacySettings (n : Node) : Bool :=
  n.tag = "iq" && (n.childByTag "privacy").isSome

/-- Spec dispatch table: an `iq` with a `privacy` child (update reply). -/
def isSendPrivacySettings (n : Node) : Bool :=
  n.tag = "iq" && (n.childByTag "privacy").isSome

/-- Spec dispatch table: an `iq` with an `extend` account child. -/
def isAccountExtended (n : Node) : Bool :=
  n.tag = "iq" && (n.childByTag "extend").isSome

/-- `WhatsApi.prototype.createReceiptNode`: a `receipt` with the
message's sender as target, `type = "read"`, the message's id, and the
timestamp. -/
def createReceiptNode (now : Nat) (n : Node) : Node :=
  Node.node "receipt"
    [("to", (n.attr "from").getD ""), ("type", "read"),
     ("id", (n.attr "id").getD ""), ("t", natToStr now)] [] []

/-- `WhatsApi.prototype.createNotificationAckNode`: an `ack` mirroring
the notification's sender, id and type, with optional `from` and
`participant` attributes. -/
def createNotificationAckNode (n : Node) : Node :=
  let base := [("to", (n.attr "from").getD ""), ("class", "notification"),
    ("id", (n.attr "id").getD ""), ("type", (n.attr "type").getD "")]
  let withFrom := base ++
    (match n.attr "to" with
     | some v => [("from", v)]
     | none => [])
  let withPart := withFrom ++
    (match n.attr "participant" with
     | some v => [("participant", v)]
     | none => [])
  Node.node "ack" withPart [] []

/-- `WhatsApi.prototype.createAckNode`: an `ack` for a received
`receipt`, mirroring the sender and id with the timestamp and an
optional type. -/
def createAckNode (now : Nat) (n : Node) : Node :=
  let base := [("to", (n.attr "from").getD ""),
    ("id", (n.attr "id").getD ""), ("t", natToStr now)]
  let withType := base ++
    (match n.attr "type" with
     | some v => [("type", v)]
     | none => [])
  Node.node "ack" withType [] []

/-- `WhatsApi.prototype.createPongNode`: an `iq result` answering a
ping. -/
def createPongNode (server : String) (messageId : String) : Node :=
  Node.node "iq" [("to", server), ("id", messageId), ("type", "result")] [] []

/-- `WhatsApi.prototype.createClearDirtyNode`: a `clean` iq echoing the
dirty categories. -/
def createClearDirtyNode (server : String) (now counter : Nat) (n : Node) :
    Node :=
  let categories := (n.children.filter (fun c => c.tag = "category")).map
    (fun c => Node.node "category" [("name", (c.attr "name").getD "")] [] [])
  let cleanNode := Node.node "clean"
    [("xmlns", "urn:xmpp:whatsapp:dirty")] categories []
  Node.node "iq"
    [("id", (nextMessageId "cleardirty" now counter).1), ("type", "set"),
     ("to", server)] [cleanNode] []

/-- The group-notification emissions of the notification branch
(part_004): one typed event depending on the first child's tag when the
notification type is `w:gp2`. -/
def groupNotificationEmits (n : Node) : List Action :=
  if n.attr "type" = some "w:gp2" then
    match n.childAt 0 with
    | some c =>
      if c.tag = "create" then [.emitE "notificationGroupCreated"]
      else if c.tag = "add" || c.tag = "remove" || c.tag = "promote" ||
          c.tag = "demote" then
        [.emitE "notificationGroupParticipantsChanged"]
      else if c.tag = "subject" then
        [.emitE "notificationGroupSubjectChanged"]
      else []
    | none => []
  else []

/-- The `clientReceived` emissions of the receipt branch: one event for
the main id and one per id in the `list` child. -/
def clientReceivedEmits (n : Node) : List Action :=
  let listIds :=
    match n.childByTag "list" with
    | some l => l.children.map (fun c => (c.attr "id").getD "")
    | none => []
  ((n.attr "id").getD "" :: listIds).map (fun _ => .emitE "clientReceived")

/-- `WhatsApi.processNode` (part_004) as an ordered action trace.
`self` is `this.selfAddress`, `authResponse` builds the encrypted
`response` node of the challenge branch from the challenge bytes, and
`flushSends` are the message nodes the success branch flushes out of the
pre-login queue (see the send-queue section). -/
def processNodeActions (server self : String) (now counter : Nat)
    (authResponse : List Nat → Node) (flushSends : List Node)
    (n : Node) : List Action :=
  if isError n then [.invoke ((n.attr "id").getD "")]
  else
    (if shouldBeReplied n && !((n.attr "from").getD "" = self) then
      [.push (createReceiptNode now n)] else []) ++
    (if isNotification n then
      .push (createNotificationAckNode n) :: groupNotificationEmits n
    else if isReceipt n then
      .push (createAckNode now n) :: clientReceivedEmits n
    else if isAck n then [.invoke ((n.attr "id").getD "")]
    else if isChallenge n then [.push (authResponse n.payload)]
    else if isSuccess n then
      flushSends.map .push ++ [.emitE "login"]
    else if isFailure n then [.emitE "error"]
    else
      (if isOfflineCount n then [.emitE "offlineCount"] else []) ++
      (if isPresence n && !((n.attr "from").getD "" = self) then
        [.emitE "presence"]
      else if isDirtyPresence n then
        [.push (createClearDirtyNode server now counter n)]
      else if isLastSeen n then [.invoke ((n.attr "id").getD "")]
      else if isPing n then
        [.push (createPongNode server ((n.attr "id").getD ""))]
      else if isGroupList n then [.emitE "groupList"]
      else if isGroupAdd n then [.emitE "groupCreated"]
      else if isGroupInfo n then [.emitE "groupInfo"]
      else if isChangeGroupParticipants n then
        [.emitE "groupChangedParticipants"]
      else if isLeaveGroup n then [.emitE "groupLeave"]
      else if isMediaReady n then []
      else if isProfilePicture n then [.emitE "profilePictureReceived"]
      else if isGetStatus n then [.emitE "statusReceived"]
      else if isSendStatus n then [.emitE "statusUpdated"]
      else if isMessage n then
        (if n.attr "type" = some "text" then [.emitE "typing"] else []) ++
          (aggregateProcess builtinMatchers n).map .emitE
      else if isTyping n then [.emitE "typing"]
      else if isSync n then [.invoke ((n.attr "id").getD "")]
      else if isProperties n then [.invoke ((n.attr "id").getD "")]
      else if isServicePricing n then [.invoke ((n.attr "id").getD "")]
      else if isGetPrivacySettings n then [.emitE "privacySettings"]
      else if isSendPrivacySettings n then [.emitE "privacySettingsUpdated"]
      else if isAccountExtended n then [.emitE "accountExtended"]
      else []))

/-- A concrete inbound text message node (the spec's scenario 3). -/
def inboundTextNode : Node :=
  Node.node "message"
    [("from", "31000000000@s.whatsapp.net"), ("id", "abc"),
     ("type", "text"), ("t", "1700000000"), ("notify", "Bob")]
    [Node.node "body" [] [] (strBytes "hi")]
    []

/-- A concrete inbound group notification node. -/
def inboundNotificationNode : Node :=
  Node.node "notification"
    [("from", "123456-789@g.us"), ("id", "n1"), ("type", "w:gp2"),
     ("t", "1700000000"), ("participant", "31000000000@s.whatsapp.net")]
    [Node.node "subject" [("subject", "New topic")] [] []]
    []

/-! ## Encryption bridge (extensions/encryption.js)

`getKeys(jids)` sends the pre-key fetch `iq` and records the requested
JIDs under the generated id (`nextMessageId()` is called without a
prefix; `join` renders the `undefined` slot as the empty string).
`processGetKeysResponse` extracts a pre-key bundle from every `user`
child of the response's `list`, looks up the requested JIDs recorded for
the response id, and for each: absent from the response → mark
skip-encryption and drain the pending queue; present → build a session
from the bundle (via the external `axolotl.createSessionFromPreKeyBundle`,
kept abstract as `mk`), cache it, and drain the pending queue.  The
promise continuations are modelled as running synchronously.

`processPendingMessages` itself is code of this repository that is not
under src/ (only its callers are).  Modelled from the spec: drain the
per-JID pending plaintext list, delivering each message unencrypted for
a skip-encryption JID and encrypted when a session is cached.
Deliveries are recorded as (jid, text, encrypted?). -/

/-- A remote pre-key bundle (encryption.js / spec §3). -/
structure PreKeyBundle where
  identityKey : List Nat
  preKeyId : Nat
  preKey : List Nat
  signedPreKeyId : Nat
  signedPreKey : List Nat
  signedPreKeySignature : List Nat

/-- The 3-byte big-endian read the bundle ids use
(`Buffer.prototype.readUInt24BE`). -/
def readUInt24BE (l : List Nat) : Nat :=
  l.getD 0 0 * 65536 + l.getD 1 0 * 256 + l.getD 2 0

/-- Payload of a named child, empty when the child is absent (the source
assumes the response is well-shaped). -/
def childPayload (n : Node) (t : String) : List Nat :=
  ((n.childByTag t).map Node.payload).getD []

/-- The pre-key bundle extracted from one `user` child of the response
(encryption.js `processGetKeysResponse`): public keys get the 0x05
curve-type byte prepended; ids are 3-byte big-endian. -/
def bundleOfUserNode (u : Node) : PreKeyBundle :=
  let preKeyNode := (u.childByTag "key").getD (Node.node "key" [] [] [])
  let signedPreKeyNode := (u.childByTag "skey").getD (Node.node "skey" [] [] [])
  { identityKey := 5 :: childPayload u "identity"
    preKeyId := readUInt24BE (childPayload preKeyNode "id")
    preKey := 5 :: childPayload preKeyNode "value"
    signedPreKeyId := readUInt24BE (childPayload signedPreKeyNode "id")
    signedPreKey := 5 :: childPayload signedPreKeyNode "value"
    signedPreKeySignature := childPayload signedPreKeyNode "signature" }

/-- First-match association lookup (JavaScript object property read). -/
def assocGet {β : Type} (l : List (String × β)) (k : String) : Option β :=
  (l.find? (fun it => it.1 = k)).map Prod.snd

/-- Remove every binding of a key (JavaScript `delete obj[k]`). -/
def assocRemove {β : Type} (l : List (String × β)) (k : String) :
    List (String × β) :=
  l.filter (fun it => ¬(it.1 = k))

/-- Overwrite the binding of a key (JavaScript `obj[k] = v`). -/
def assocSet {β : Type} (l : List (String × β)) (k : String) (v : β) :
    List (String × β) :=
  assocRemove l k ++ [(k, v)]

/-- The session-related state of the encryption bridge.  `σ` is the
opaque session record type of the external `axolotl` library. -/
structure EncState (σ : Type) where
  counter : Nat
  pendingGetKeyRequests : List (String × List String)
  skipEncJids : List String
  sessions : List (String × σ)
  pendingMessages : List (String × List String)
  sentNodes : List Node
  deliveries : List (String × String × Bool)

/-- `WhatsApi.prototype.getKeys`: record the requested JIDs under the
generated message id and send
`<iq to=server xmlns=encrypt type=get id=…><key><user jid=…/>…</key></iq>`. -/
def getKeys {σ : Type} (server : String) (now : Nat) (st : EncState σ)
    (jids : List String) : EncState σ :=
  let gen := nextMessageId "" now st.counter
  let users := jids.map (fun j => Node.node "user" [("jid", j)] [] [])
  let keyNode := Node.node "key" [] users []
  let iq := Node.node "iq"
    [("to", server), ("xmlns", "encrypt"), ("type", "get"), ("id", gen.1)]
    [keyNode] []
  { st with
      counter := gen.2
      pendingGetKeyRequests := st.pendingGetKeyRequests ++ [(gen.1, jids)]
      sentNodes := st.sentNodes ++ [iq] }

/-- Modelled from the spec: `processPendingMessages(jid)` is not under
src/ (only its callers in encryption.js are).  Per §4.6 it drains the
per-JID pending plaintext queue: each message is delivered encrypted
when a session is cached and the JID is not marked skip-encryption, and
unencrypted otherwise. -/
def processPendingMessages {σ : Type} (st : EncState σ) (jid : String) :
    EncState σ :=
  let msgs := (assocGet st.pendingMessages jid).getD []
  let enc := (assocGet st.sessions jid).isSome && !(decide (jid ∈ st.skipEncJids))
  { st with
      pendingMessages := assocRemove st.pendingMessages jid
      deliveries := st.deliveries ++ msgs.map (fun m => (jid, m, enc)) }

/-- The (jid, bundle) pairs of the response's `list` children. -/
def responseBundles (resp : Node) : List (String × PreKeyBundle) :=
  ((resp.childByTag "list").getD (Node.node "list" [] [] [])).children.map
    (fun u => ((u.attr "jid").getD "", bundleOfUserNode u))

/-- One iteration of the `jids.forEach` of `processGetKeysResponse`:
absent from the response → mark skip-encryption and drain; present →
cache the session built from the bundle and drain. -/
def processKeyJid {σ : Type} (mk : PreKeyBundle → σ)
    (bundles : List (String × PreKeyBundle)) (acc : EncState σ)
    (jid : String) : EncState σ :=
  match assocGet bundles jid with
  | none =>
    processPendingMessages
      { acc with skipEncJids := acc.skipEncJids ++ [jid] } jid
  | some b =>
    processPendingMessages
      { acc with sessions := assocSet acc.sessions jid (mk b) } jid

/-- `WhatsApi.prototype.processGetKeysResponse`: look up and delete the
requested JIDs recorded under the response id, then process each. -/
def processGetKeysResponse {σ : Type} (mk : PreKeyBundle → σ)
    (st : EncState σ) (resp : Node) : EncState σ :=
  let bundles := responseBundles resp
  let mid := (resp.attr "id").getD ""
  let jids := (assocGet st.pendingGetKeyRequests mid).getD []
  let st1 := { st with
    pendingGetKeyRequests := assocRemove st.pendingGetKeyRequests mid }
  jids.foldl (processKeyJid mk bundles) st1

/-! ## Binary node codec

Modelled from the spec: the `Reader`/`Writer` pair and the token
dictionary live in `protocol.js` and `dictionary.js`, which are not part
of the provided sources.  Per §4.1–§4.2 the writer emits, per node, a
list opener carrying the element count `1 + 2·|attrs| +
(children or payload ? 1 : 0)`, the tag as a dictionary token (primary:
single byte in 3..235; secondary: a prefix byte 236..243 selecting a
table plus an index byte) or as a length-prefixed literal, each
attribute key/value pair in order, then either the child list (opener
plus encoded children) or the length-prefixed payload; the reader
mirrors this with a recursive descent.  Bytes are modelled as natural
numbers, literal characters by their codepoints, and length prefixes by
a single model byte (the writer MAY choose among the BINARY_8/20/31
forms; the model uses one canonical form).  The reader takes a recursion
fuel; `NodeWF f n` certifies the spec's well-formedness invariants (§3)
together with the tree depth bound `f`. -/

/-- The two-level token dictionary (§4.1). -/
structure Dict where
  primary : List String
  secondary : List (List String)

/-- Index of the first occurrence of a string in a token table. -/
def firstIdx (l : List String) (s : String) : Option Nat :=
  match l with
  | [] => none
  | x :: rest => if x = s then some 0 else (firstIdx rest s).map (· + 1)

/-- First secondary table and index containing a string. -/
def secFind (tables : List (List String)) (s : String) : Option (Nat × Nat) :=
  match tables with
  | [] => none
  | t :: rest =>
    match firstIdx t s with
    | some j => some (0, j)
    | none => (secFind rest s).map (fun p => (p.1 + 1, p.2))

/-- Length-prefixed literal form of a string (unknown tokens). -/
def strLiteral (s : String) : List Nat :=
  252 :: s.data.length :: s.data.map Char.toNat

/-- Fallback encoding when the primary table has no token: a secondary
two-byte token when available, else the literal form. -/
def encodeStringFallback (d : Dict) (s : String) : List Nat :=
  match secFind d.secondary s with
  | some (t, j) => if t ≤ 7 ∧ j ≤ 255 then [236 + t, j] else strLiteral s
  | none => strLiteral s

/-- Writer-side string emission: primary single-byte token when the
index is in token range, else secondary token, else literal. -/
def encodeString (d : Dict) (s : String) : List Nat :=
  match firstIdx d.primary s with
  | some i =>
    if 3 ≤ i ∧ i ≤ 235 then [i] else encodeStringFallback d s
  | none => encodeStringFallback d s

/-- Reader-side string decoding, mirroring `encodeString`; returns the
string and the remaining bytes. -/
def readString (d : Dict) (bytes : List Nat) : Option (String × List Nat) :=
  match bytes with
  | [] => none
  | b :: rest =>
    if 3 ≤ b ∧ b ≤ 235 then (d.primary.get? b).map (fun s => (s, rest))
    else if 236 ≤ b ∧ b ≤ 243 then
      match rest with
      | j :: rest2 =>
        ((d.secondary.get? (b - 236)).bind (fun t => t.get? j)).map
          (fun s => (s, rest2))
      | [] => none
    else if b = 252 then
      match rest with
      | len :: rest2 =>
        if len ≤ rest2.length then
          some (String.mk ((rest2.take len).map Char.ofNat), rest2.drop len)
        else none
      | [] => none
    else none

/-- Writer-side attribute list emission: key/value pairs in order. -/
def writeAttrs (d : Dict) : List (String × String) → List Nat
  | [] => []
  | p :: rest => encodeString d p.1 ++ encodeString d p.2 ++ writeAttrs d rest

/-- Reader-side attribute list decoding for a known pair count. -/
def readAttrs (d : Dict) : Nat → List Nat → Option (List (String × String) × List Nat)
  | 0, bytes => some ([], bytes)
  | k + 1, bytes =>
    match readString d bytes with
    | none => none
    | some (key, r1) =>
      match readString d r1 with
      | none => none
      | some (v, r2) =>
        match readAttrs d k r2 with
        | none => none
        | some (l, r3) => some ((key, v) :: l, r3)

/-- The writer (§4.2) with explicit recursion fuel: opener with element
count, tag, attributes, then the child list (opener plus children) when
children are present, else the length-prefixed payload when present. -/
def writeNodeF (d : Dict) : Nat → Node → List Nat
  | 0, _ => []
  | f + 1, Node.node t attrs children payload =>
    let cnt := 1 + 2 * attrs.length +
      (if children.length ≠ 0 ∨ payload.length ≠ 0 then 1 else 0)
    248 :: cnt ::
      (encodeString d t ++ writeAttrs d attrs ++
        (if children.length ≠ 0 then
          248 :: children.length :: (children.map (writeNodeF d f)).flatten
        else if payload.length ≠ 0 then
          252 :: payload.length :: payload
        else []))

/-- Read a fixed number of elements with a given element reader. -/
def readListWith (reader : List Nat → Option (Node × List Nat)) :
    Nat → List Nat → Option (List Node × List Nat)
  | 0, bytes => some ([], bytes)
  | m + 1, bytes =>
    match reader bytes with
    | none => none
    | some (c, rest) =>
      match readListWith reader m rest with
      | none => none
      | some (cs, rest2) => some (c :: cs, rest2)

/-- The reader (§4.2) with explicit recursion fuel, mirroring
`writeNodeF`: element count determines the attribute count and whether
content follows; content is a child list behind a list opener or a
length-prefixed payload. -/
def readNodeF (d : Dict) : Nat → List Nat → Option (Node × List Nat)
  | 0, _ => none
  | f + 1, bytes =>
    match bytes with
    | 248 :: cnt :: rest =>
      match readString d rest with
      | none => none
      | some (t, rest1) =>
        match readAttrs d ((cnt - 1) / 2) rest1 with
        | none => none
        | some (attrs, rest2) =>
          if (cnt - 1) % 2 = 1 then
            match rest2 with
            | b :: m :: rest3 =>
              if b = 248 then
                match readListWith (readNodeF d f) m rest3 with
                | none => none
                | some (cs, rest4) => some (Node.node t attrs cs [], rest4)
              else if b = 252 then
                if m ≤ rest3.length then
                  some (Node.node t attrs [] (rest3.take m), rest3.drop m)
                else none
              else none
            | _ => none
          else some (Node.node t attrs [] [], rest2)
    | _ => none

/-- The spec's well-formedness invariants (§3) for a node of depth at
most `f`: non-empty tag, unique attribute keys, and children or payload
but not both on the wire. -/
inductive NodeWF : Nat → Node → Prop where
  | mk (f : Nat) (t : String) (attrs : List (String × String))
      (children : List Node) (payload : List Nat) :
      t ≠ "" → (attrs.map Prod.fst).Nodup →
      ¬(children ≠ [] ∧ payload ≠ []) →
      (∀ c ∈ children, NodeWF f c) →
      NodeWF (f + 1) (Node.node t attrs children payload)

/-- A small concrete dictionary for evaluation. -/
def demoDict : Dict :=
  { primary := ["", "", "", "message", "body", "to", "type", "id", "t"]
    secondary := [["s.whatsapp.net", "g.us"]] }

/-- A concrete well-formed message node for evaluation. -/
def demoNode : Node :=
  Node.node "message"
    [("to", "31000000000@s.whatsapp.net"), ("type", "text")]
    [Node.node "body" [] [] (strBytes "hello")]
    []

/-! # Theorems -/

theorem decDigitsGo_congr :
    ∀ (f1 : Nat) (f2 n : Nat), n ≤ f1 → n ≤ f2 →
      decDigitsGo f1 n = decDigitsGo f2 n := by
  intro f1
  induction f1 with
  | zero =>
    intro f2 n h1 _
    interval_cases n
    cases f2 <;> simp [decDigitsGo]
  | succ f ih =>
    intro f2 n h1 h2
    by_cases hn : n = 0
    · subst hn
      cases f2 <;> simp [decDigitsGo]
    · cases f2 with
      | zero => omega
      | succ g =>
        simp only [decDigitsGo, hn, if_neg, not_false_iff]
        have hd : n / 10 < n := Nat.div_lt_self (Nat.pos_of_ne_zero hn) (by decide)
        rw [ih g (n / 10) (by omega) (by omega)]

/-- The recursion equation of `decDigitsLE`. -/
theorem decDigitsLE_eq (n : Nat) :
    decDigitsLE n = if n = 0 then [] else n % 10 :: decDigitsLE (n / 10) := by
  by_cases hn : n = 0
  · subst hn; rfl
  · obtain ⟨m, rfl⟩ := Nat.exists_eq_succ_of_ne_zero hn
    simp only [decDigitsLE, decDigitsGo, hn, if_neg, not_false_iff]
    have hd : (m + 1) / 10 < m + 1 := Nat.div_lt_self (Nat.succ_pos m) (by decide)
    rw [decDigitsGo_congr m ((m + 1) / 10) ((m + 1) / 10) (by omega) (le_refl _)]

theorem valLE_decDigitsLE (n : Nat) : valLE (decDigitsLE n) = n := by
  induction n using Nat.strong_induction_on with
  | _ n ih =>
    by_cases h : n = 0
    · subst h; simp [decDigitsLE, decDigitsGo, valLE]
    · rw [decDigitsLE_eq]
      simp only [h, if_neg, not_false_iff]
      have hlt : n / 10 < n := Nat.div_lt_self (Nat.pos_of_ne_zero h) (by decide)
      have := ih (n / 10) hlt
      simp only [valLE, List.foldr_cons] at *
      omega

theorem charDigit_digitChar {d : Nat} (h : d < 10) :
    charDigit (digitChar d) = d := by
  interval_cases d <;> rfl

theorem digitChar_ne_dash (d : Nat) : digitChar d ≠ '-' := by
  unfold digitChar
  split <;> decide

theorem decDigitsLE_lt10 (n : Nat) : ∀ d ∈ decDigitsLE n, d < 10 := by
  induction n using Nat.strong_induction_on with
  | _ n ih =>
    by_cases h : n = 0
    · subst h; rw [decDigitsLE_eq]; simp
    · rw [decDigitsLE_eq]
      simp only [h, if_neg, not_false_iff, List.mem_cons]
      rintro d (rfl | hd)
      · exact Nat.mod_lt _ (by decide)
      · exact ih (n / 10) (Nat.div_lt_self (Nat.pos_of_ne_zero h) (by decide)) d hd

theorem natToStr_no_dash (n : Nat) : ∀ c ∈ (natToStr n).data, c ≠ '-' := by
  unfold natToStr
  split
  · intro c hc; simp only [String.data] at hc; simp at hc; subst hc; decide
  · intro c hc
    simp only [String.data] at hc
    simp only [List.mem_map, List.mem_reverse] at hc
    obtain ⟨d, _, rfl⟩ := hc
    exact digitChar_ne_dash d

theorem map_digitChar_inj :
    ∀ {ds es : List Nat}, (∀ d ∈ ds, d < 10) → (∀ d ∈ es, d < 10) →
      ds.map digitChar = es.map digitChar → ds = es := by
  intro ds
  induction ds with
  | nil =>
    intro es _ _ h
    cases es with
    | nil => rfl
    | cons e es2 => simp at h
  | cons d ds2 ih =>
    intro es hds hes h
    cases es with
    | nil => simp at h
    | cons e es2 =>
      simp only [List.map_cons, List.cons.injEq] at h
      have hd : d = e := by
        have h1 := charDigit_digitChar (hds d (List.mem_cons_self d ds2))
        have h2 := charDigit_digitChar (hes e (List.mem_cons_self e es2))
        rw [← h1, ← h2, h.1]
      have ht := ih (fun x hx => hds x (List.mem_cons_of_mem d hx))
        (fun x hx => hes x (List.mem_cons_of_mem e hx)) h.2
      rw [hd, ht]

theorem natToStr_inj {a b : Nat} (h : natToStr a = natToStr b) : a = b := by
  have hdata : (natToStr a).data = (natToStr b).data := by rw [h]
  unfold natToStr at hdata
  have hdig : ∀ n : Nat, ∀ d ∈ (decDigitsLE n).reverse, d < 10 := by
    intro n d hd
    exact decDigitsLE_lt10 n d (List.mem_reverse.mp hd)
  have key : ∀ m k : Nat, m = 0 → k ≠ 0 →
      ("0" : String).data = ((decDigitsLE k).reverse.map digitChar) → False := by
    intro m k _ hk hkd
    have : ([0] : List Nat).map digitChar = (decDigitsLE k).reverse.map digitChar := by
      rw [← hkd]; rfl
    have := map_digitChar_inj (by intro d hd; simp at hd; omega) (hdig k) this
    have hval : valLE (decDigitsLE k) = k := valLE_decDigitsLE k
    have : decDigitsLE k = [0] := by
      have := congrArg List.reverse this
      simpa using this.symm
    rw [this] at hval
    simp [valLE] at hval
    exact hk hval.symm
  by_cases ha : a = 0 <;> by_cases hb : b = 0
  · omega
  · exfalso
    simp only [ha, if_pos, hb, if_neg, not_false_iff] at hdata
    exact key a b ha hb hdata
  · exfalso
    simp only [hb, if_pos, ha, if_neg, not_false_iff] at hdata
    exact key b a hb ha hdata.symm
  · simp only [ha, hb, if_neg, not_false_iff] at hdata
    have : (decDigitsLE a).reverse = (decDigitsLE b).reverse :=
      map_digitChar_inj (hdig a) (hdig b) hdata
    have hab : decDigitsLE a = decDigitsLE b := by
      have := congrArg List.reverse this
      simpa using this
    calc a = valLE (decDigitsLE a) := (valLE_decDigitsLE a).symm
      _ = valLE (decDigitsLE b) := by rw [hab]
      _ = b := valLE_decDigitsLE b

theorem dashfree_suffix_cancel :
    ∀ (xs : List Char) (ys : List Char) (u v : List Char),
      (∀ c ∈ xs, c ≠ '-') → (∀ c ∈ ys, c ≠ '-') →
      xs ++ '-' :: u = ys ++ '-' :: v → xs = ys := by
  intro xs
  induction xs with
  | nil =>
    intro ys u v _ hys h
    cases ys with
    | nil => rfl
    | cons y ys2 =>
      exfalso
      simp only [List.nil_append, List.cons_append, List.cons.injEq] at h
      exact hys y (List.mem_cons_self y ys2) h.1.symm
  | cons x xs2 ih =>
    intro ys u v hxs hys h
    cases ys with
    | nil =>
      exfalso
      simp only [List.nil_append, List.cons_append, List.cons.injEq] at h
      exact hxs x (List.mem_cons_self x xs2) h.1
    | cons y ys2 =>
      simp only [List.cons_append, List.cons.injEq] at h
      have := ih ys2 u v (fun c hc => hxs c (List.mem_cons_of_mem x hc))
        (fun c hc => hys c (List.mem_cons_of_mem y hc)) h.2
      rw [h.1, this]

/-- Appending a dash and a dash-free tail determines the tail. -/
theorem dash_tail_cancel (u v d1 d2 : List Char)
    (h1 : ∀ c ∈ d1, c ≠ '-') (h2 : ∀ c ∈ d2, c ≠ '-')
    (h : u ++ '-' :: d1 = v ++ '-' :: d2) : d1 = d2 := by
  have hrev : d1.reverse ++ '-' :: u.reverse = d2.reverse ++ '-' :: v.reverse := by
    have := congrArg List.reverse h
    simpa [List.reverse_append] using this
  have := dashfree_suffix_cancel d1.reverse d2.reverse u.reverse v.reverse
    (fun c hc => h1 c (List.mem_reverse.mp hc))
    (fun c hc => h2 c (List.mem_reverse.mp hc)) hrev
  have := congrArg List.reverse this
  simpa using this

/-- String equality follows from equality of the character data. -/
theorem string_data_inj {s t : String} (h : s.data = t.data) : s = t := by
  cases s; cases t; exact congrArg String.mk h

/-- C10: For every destination string, `createJID` returns an input
containing an at sign unchanged; otherwise it appends the group server
(default `g.us`) when the input contains a dash, and the user server
(default `s.whatsapp.net`) otherwise. -/
theorem createJID_spec (s : String) :
    (containsChar s '@' = true →
      createJID defaultServer defaultGServer s = s) ∧
    (containsChar s '@' = false → containsChar s '-' = true →
      createJID defaultServer defaultGServer s = s ++ "@" ++ defaultGServer) ∧
    (containsChar s '@' = false → containsChar s '-' = false →
      createJID defaultServer defaultGServer s = s ++ "@" ++ defaultServer) := by
  refine ⟨fun h => ?_, fun h1 h2 => ?_, fun h1 h2 => ?_⟩ <;>
    simp [createJID, *]

/-- Witness for `createJID_spec` at the three kinds of concrete input. -/
theorem createJID_spec_witness :
    createJID defaultServer defaultGServer "31000000000" =
      "31000000000@s.whatsapp.net" ∧
    createJID defaultServer defaultGServer "123456-789" = "123456-789@g.us" ∧
    createJID defaultServer defaultGServer "x@g.us" = "x@g.us" := by
  refine ⟨?_, ?_, ?_⟩
  · have h := (createJID_spec "31000000000").2.2 (by decide) (by decide)
    rw [h]; decide
  · have h := (createJID_spec "123456-789").2.1 (by decide) (by decide)
    rw [h]; decide
  · exact (createJID_spec "x@g.us").1 (by decide)

/-- C8: `nextMessageId(prefix)` returns
`prefix || "-" || unix_ts || "-" || ++counter`, the counter strictly
increases on every call, and any two calls with distinct counter values
return distinct id strings even when the timestamps coincide. -/
theorem nextMessageId_spec (p1 p2 : String) (t1 t2 c1 c2 : Nat) :
    (nextMessageId p1 t1 c1).1 =
      p1 ++ "-" ++ natToStr t1 ++ "-" ++ natToStr (c1 + 1) ∧
    (nextMessageId p1 t1 c1).2 = c1 + 1 ∧
    c1 < (nextMessageId p1 t1 c1).2 ∧
    (c1 ≠ c2 → (nextMessageId p1 t1 c1).1 ≠ (nextMessageId p2 t2 c2).1) := by
  refine ⟨rfl, rfl, Nat.lt_succ_self c1, fun hne heq => ?_⟩
  have hdata := congrArg String.data heq
  simp only [nextMessageId, String.data_append] at hdata
  have h1 : (p1.data ++ '-' :: (natToStr t1).data) ++
      '-' :: (natToStr (c1 + 1)).data =
      (p2.data ++ '-' :: (natToStr t2).data) ++
      '-' :: (natToStr (c2 + 1)).data := by
    simpa [List.append_assoc] using hdata
  have hd := dash_tail_cancel _ _ _ _
    (natToStr_no_dash (c1 + 1)) (natToStr_no_dash (c2 + 1)) h1
  have := natToStr_inj (string_data_inj hd)
  omega

/-- Witness for `nextMessageId_spec`: two calls with the same timestamp
and counters 0 and 1 give distinct ids. -/
theorem nextMessageId_spec_witness :
    (0 : Nat) ≠ 1 ∧
    (nextMessageId "message" 1700000000 0).1 ≠
      (nextMessageId "message" 1700000000 1).1 := by
  exact ⟨by decide,
    (nextMessageId_spec "message" "message" 1700000000 1700000000 0 1).2.2.2
      (by decide)⟩

/-- C1: `decodeMessage` never verifies the received MAC.  For every HMAC
implementation, keystream state and frame, decoding succeeds, and
perturbing a byte below the enciphered range — in particular any of the
4 MAC bytes at `macOffset` when `macOffset + 4 ≤ offset`, as in the
reader's layout — yields the same accepting result with the same
advanced keystream (the perturbed byte is merely copied through).  The
claimed `MacError` rejection is unreachable: the source's verification
loop is present only in a comment. -/
theorem decodeMessage_accepts_tampered_mac
    (hmac : List Nat → List Nat → List Nat) (ks : KeyStream)
    (buf : List Nat) (i b macOffset offset length : Nat)
    (hio : i < offset) (hib : i < buf.length) :
    ∃ ks2 out,
      decodeMessage hmac ks buf macOffset offset length =
        Except.ok (ks2, out) ∧
      decodeMessage hmac ks (buf.set i b) macOffset offset length =
        Except.ok (ks2, out.set i b) ∧
      ks2.seq = ks.seq + 1 := by
  have hdrop : (buf.set i b).drop offset = buf.drop offset :=
    List.drop_set_of_lt b buf hio
  have hdrop2 : (buf.set i b).drop (offset + length) = buf.drop (offset + length) :=
    List.drop_set_of_lt b buf (Nat.lt_of_lt_of_le hio (Nat.le_add_right _ _))
  have htake : (buf.set i b).take offset = (buf.take offset).set i b :=
    List.set_take
  have hlen : i < (buf.take offset).length := by
    rw [List.length_take]
    omega
  refine ⟨_, _, rfl, ?_, rfl⟩
  simp only [decodeMessage, computeMac, rc4Cipher, hdrop, hdrop2, htake]
  have hlen2 : i < (buf.take offset ++
      (rc4Bytes ks.rc4 ((buf.drop offset).take length)).2).length := by
    rw [List.length_append]
    omega
  rw [List.set_append_left _ _ hlen2, List.set_append_left _ _ hlen]

/-- Witness for `decodeMessage_accepts_tampered_mac`: a concrete 8-byte
frame (4 MAC bytes, 4 payload bytes) with MAC byte 1 perturbed is still
accepted, with the same deciphered result and advanced sequence. -/
theorem decodeMessage_accepts_tampered_mac_witness :
    ∃ ks2 out,
      decodeMessage (fun _ m => m) (mkKeyStream [1, 2, 3] [7, 7])
        [9, 9, 9, 9, 10, 11, 12, 13] 0 4 4 = Except.ok (ks2, out) ∧
      decodeMessage (fun _ m => m) (mkKeyStream [1, 2, 3] [7, 7])
        ([9, 9, 9, 9, 10, 11, 12, 13].set 1 0) 0 4 4 =
        Except.ok (ks2, out.set 1 0) ∧
      ks2.seq = (mkKeyStream [1, 2, 3] [7, 7]).seq + 1 :=
  decodeMessage_accepts_tampered_mac (fun _ m => m)
    (mkKeyStream [1, 2, 3] [7, 7]) [9, 9, 9, 9, 10, 11, 12, 13] 1 0 0 4 4
    (by decide) (by decide)

/-- C2 counterexample: on the cached-challenge login path
(`createAuthData`) the key material is not the claimed four-key
iteration-2 derivation.  With a PBKDF2 stand-in that returns outputs of
the requested length, the reader cipher key produced by the source is a
single byte, while the claimed derivation produces a 20-byte key. -/
theorem createAuthData_keys_counterexample :
    createAuthDataMaterial demoPbkdf2 [] (List.replicate 32 170) ≠
      deriveKeysClaim demoPbkdf2 [] (List.replicate 32 170) ∧
    (createAuthDataMaterial demoPbkdf2 []
      (List.replicate 32 170)).readerCipher.length = 1 ∧
    (deriveKeysClaim demoPbkdf2 []
      (List.replicate 32 170)).readerCipher.length = 20 := by
  refine ⟨?_, rfl, rfl⟩
  decide

/-- C2 amended: only the fresh-challenge path (`initKeys` via
`generateKeys`) derives the four 20-byte keys by PBKDF2 with iteration
count 2 over the base64-decoded password and salt `nonce || byte(j)`,
writer from outputs 1 and 2 and reader from outputs 3 and 4 — it agrees
with the claimed derivation for every PBKDF2 implementation.  The
cached-challenge path instead performs a single PBKDF2 run with
iteration count 16 over the cached challenge and builds the writer
keystream from the single-byte buffers `[key[0]]`, `[key[1]]` and the
reader keystream from `[key[2]]`, `[key[3]]`. -/
theorem keyDerivation_amended (impl : Pbkdf2Impl) (password nonce : List Nat) :
    initKeysMaterial impl password nonce = deriveKeysClaim impl password nonce ∧
    createAuthDataMaterial impl password nonce =
      { writerCipher := [(impl password nonce 16 20).getD 0 0]
        writerMac := [(impl password nonce 16 20).getD 1 0]
        readerCipher := [(impl password nonce 16 20).getD 2 0]
        readerMac := [(impl password nonce 16 20).getD 3 0] } := by
  constructor
  · simp [initKeysMaterial, generateKeys, deriveKeysClaim, pbkdf2]
  · simp [createAuthDataMaterial, pbkdf2]

/-- After login, `sendMessageNode` with a generated id sends exactly one
message node and advances the counter by one. -/
theorem sendMessageNode_loggedIn (server gserver : String) (now : Nat)
    (st : SendState) (dest : String) (n : Node) (h : st.loggedIn = true) :
    sendMessageNode server gserver now st dest n none =
      { st with messageId := st.messageId + 1,
                sent := st.sent ++
                  [mkMessageNode server gserver now dest n st.messageId] } := by
  simp [sendMessageNode, h, sendNodeS, mkMessageNode, nextMessageId]

/-- Witness for `sendMessageNode_loggedIn` at a concrete state. -/
theorem sendMessageNode_loggedIn_witness :
    sendMessageNode "s.whatsapp.net" "g.us" 5 ⟨true, 0, [], []⟩ "31"
      (Node.node "body" [] [] []) none =
      { loggedIn := true, messageId := 1, queue := [],
        sent := [mkMessageNode "s.whatsapp.net" "g.us" 5 "31"
          (Node.node "body" [] [] []) 0] } :=
  sendMessageNode_loggedIn "s.whatsapp.net" "g.us" 5 ⟨true, 0, [], []⟩ "31"
    (Node.node "body" [] [] []) rfl

/-- A fold of post-login sends over queued entries sends one message
node per entry, in order, with consecutive generated counters. -/
theorem flushFold_spec (server gserver : String) (now : Nat) :
    ∀ (q : List (String × Node)) (st : SendState), st.loggedIn = true →
      q.foldl (fun acc e => sendMessageNode server gserver now acc e.1 e.2 none)
          st =
        { st with messageId := st.messageId + q.length,
                  sent := st.sent ++ flushSpec server gserver now st.messageId q } := by
  intro q
  induction q with
  | nil => intro st h; cases st; simp [flushSpec]
  | cons e rest ih =>
    intro st h
    obtain ⟨lg, mid, q0, s0⟩ := st
    simp only [SendState.loggedIn] at h
    subst h
    simp only [List.foldl_cons]
    rw [sendMessageNode_loggedIn server gserver now ⟨true, mid, q0, s0⟩ e.1 e.2 rfl]
    rw [ih ⟨true, mid + 1, q0,
      s0 ++ [mkMessageNode server gserver now e.1 e.2 mid]⟩ rfl]
    simp only [flushSpec, List.append_assoc, SendState.mk.injEq, List.length_cons,
      List.singleton_append, true_and]
    exact ⟨by omega, trivial⟩

/-- Witness for `flushFold_spec` at a concrete one-entry queue. -/
theorem flushFold_spec_witness :
    [("31", Node.node "body" [] [] [])].foldl
        (fun acc e => sendMessageNode "s.whatsapp.net" "g.us" 5 acc e.1 e.2 none)
        ⟨true, 0, [], []⟩ =
      { loggedIn := true, messageId := 1, queue := [],
        sent := [] ++ flushSpec "s.whatsapp.net" "g.us" 5 0
          [("31", Node.node "body" [] [] [])] } :=
  flushFold_spec "s.whatsapp.net" "g.us" 5
    [("31", Node.node "body" [] [] [])] ⟨true, 0, [], []⟩ rfl

/-- C3: a `sendMessage` call while not logged in writes nothing to the
transport and appends the destination/node pair to the queue; the transition to
logged-in (the `success` branch) drains the queue, sending exactly one
message node per queued call in original submission order, each carrying
the `body` child with the text payload and attributes `to` (the JID),
`type = "text"`, a generated `message-<ts>-<counter>` id, and the
timestamp `t`. -/
theorem sendMessage_queue_spec (server gserver : String) (now : Nat)
    (st : SendState) (dest text : String) (h : st.loggedIn = false) :
    (sendMessage server gserver now st dest text).sent = st.sent ∧
    (sendMessage server gserver now st dest text).queue =
      st.queue ++ [(dest, Node.node "body" [] [] (strBytes text))] ∧
    (processSuccessSend server gserver now
        (sendMessage server gserver now st dest text)).sent =
      st.sent ++ flushSpec server gserver now st.messageId
        (st.queue ++ [(dest, Node.node "body" [] [] (strBytes text))]) ∧
    (processSuccessSend server gserver now
        (sendMessage server gserver now st dest text)).queue = [] ∧
    mkMessageNode server gserver now dest
        (Node.node "body" [] [] (strBytes text)) st.messageId =
      Node.node "message"
        [("to", createJID server gserver dest), ("type", "text"),
         ("id", "message" ++ "-" ++ natToStr now ++ "-" ++
            natToStr (st.messageId + 1)),
         ("t", natToStr now)]
        [Node.node "body" [] [] (strBytes text)] [] := by
  obtain ⟨lg, mid, q, sent⟩ := st
  simp only [SendState.loggedIn] at h
  subst h
  have hsm : sendMessage server gserver now ⟨false, mid, q, sent⟩ dest text =
      ⟨false, mid, q ++ [(dest, Node.node "body" [] [] (strBytes text))], sent⟩ := by
    simp [sendMessage, sendMessageNode]
  refine ⟨by rw [hsm], by rw [hsm], ?_, ?_, rfl⟩
  · rw [hsm]
    show (flushQueue server gserver now _).sent = _
    unfold flushQueue
    rw [flushFold_spec server gserver now _ _ rfl]
  · rw [hsm]
    show (flushQueue server gserver now _).queue = _
    unfold flushQueue
    rw [flushFold_spec server gserver now _ _ rfl]

/-- Witness for `sendMessage_queue_spec`: the spec's scenario — send
`"hello"` to `"31000000000"` before login, then log in; compare against
the evaluated trace. -/
theorem sendMessage_queue_spec_witness :
    (sendMessage "s.whatsapp.net" "g.us" 1700000000 ⟨false, 0, [], []⟩
        "31000000000" "hello").sent = [] ∧
    (processSuccessSend "s.whatsapp.net" "g.us" 1700000000
        (sendMessage "s.whatsapp.net" "g.us" 1700000000 ⟨false, 0, [], []⟩
          "31000000000" "hello")).sent =
      [Node.node "message"
        [("to", "31000000000@s.whatsapp.net"), ("type", "text"),
         ("id", "message-1700000000-1"), ("t", "1700000000")]
        [Node.node "body" [] [] (strBytes "hello")] []] := by
  have hmain := sendMessage_queue_spec "s.whatsapp.net" "g.us" 1700000000
    ⟨false, 0, [], []⟩ "31000000000" "hello" rfl
  refine ⟨hmain.1, ?_⟩
  rw [hmain.2.2.1]
  rfl

/-- C4: at the failing input — an inbound `iq result` whose `query`
child carries `seconds="120"` — the last-seen branch invokes the tracked
callback exactly once, but with `secondsAgo = 120/1000 = 0.12` instead
of `120`, and with an invalid date (`NaN` timestamp, because
`millisecondsAgo` is computed from its own hoisted `undefined` value),
instead of a date 120 seconds in the past. -/
theorem processLastSeen_divergence :
    (processLastSeen (JsNum.num 1700000000000) "31000000000@s.whatsapp.net"
        (JsNum.num 120)).secondsAgo = JsNum.num (3 / 25) ∧
    (processLastSeen (JsNum.num 1700000000000) "31000000000@s.whatsapp.net"
        (JsNum.num 120)).secondsAgo ≠ JsNum.num 120 ∧
    (processLastSeen (JsNum.num 1700000000000) "31000000000@s.whatsapp.net"
        (JsNum.num 120)).date = JsNum.nan ∧
    executeCallback [("lastseen-1700000000-1", 0)] "lastseen-1700000000-1" =
      ([0], []) := by
  have h1 : (processLastSeen (JsNum.num 1700000000000)
      "31000000000@s.whatsapp.net" (JsNum.num 120)).secondsAgo =
      JsNum.num (120 / 1000) := by
    simp [processLastSeen, JsNum.div]
  refine ⟨?_, ?_, rfl, rfl⟩
  · rw [h1]
    norm_num
  · rw [h1]
    simp only [ne_eq, JsNum.num.injEq]
    norm_num

/-- `aggregateProcess` emits exactly the events of the matchers whose
predicate holds, in list order. -/
theorem aggregateProcess_eq_filter (l : List Matcher) (n : Node) :
    aggregateProcess l n =
      (l.filter (fun m => matcherMatches m n)).map matcherEvent := by
  have key : ∀ (l2 : List Matcher) (acc : List String),
      l2.foldl (fun acc m =>
        if matcherMatches m n then acc ++ [matcherEvent m] else acc) acc =
      acc ++ (l2.filter (fun m => matcherMatches m n)).map matcherEvent := by
    intro l2
    induction l2 with
    | nil => intro acc; simp
    | cons m rest ih =>
      intro acc
      by_cases hm : matcherMatches m n
      · simp [hm, ih, List.append_assoc]
      · simp [hm, ih]
  simpa using key l []

/-- C6 counterexample: a message node carrying both a `body` child and a
location `media` child is processed by two matchers, not exactly one,
and the emitted events depend on the matcher order. -/
theorem aggregateProcess_counterexample :
    aggregateProcess builtinMatchers doubleMatchNode =
      ["message", "receivedLocation"] ∧
    (aggregateProcess builtinMatchers doubleMatchNode).length ≠ 1 ∧
    aggregateProcess builtinMatchers.reverse doubleMatchNode ≠
      aggregateProcess builtinMatchers doubleMatchNode := by
  refine ⟨rfl, by decide, by decide⟩

/-- C6 amended: `Aggregate.process` runs every matcher whose predicate
matches, in list order.  For a node accepted by exactly one of the
built-in matchers, exactly one event is emitted and the emission is
independent of the matcher order; a node accepted by no matcher is
silently discarded. -/
theorem aggregateProcess_amended (n : Node) :
    ((builtinMatchers.filter (fun m => matcherMatches m n)).length = 1 →
      (aggregateProcess builtinMatchers n).length = 1 ∧
      ∀ l : List Matcher, l.Perm builtinMatchers →
        aggregateProcess l n = aggregateProcess builtinMatchers n) ∧
    ((builtinMatchers.filter (fun m => matcherMatches m n)).length = 0 →
      aggregateProcess builtinMatchers n = []) := by
  constructor
  · intro h1
    constructor
    · rw [aggregateProcess_eq_filter, List.length_map, h1]
    · intro l hperm
      rw [aggregateProcess_eq_filter, aggregateProcess_eq_filter]
      have hpf : (l.filter (fun m => matcherMatches m n)).Perm
          (builtinMatchers.filter (fun m => matcherMatches m n)) :=
        hperm.filter _
      obtain ⟨a, ha⟩ := List.length_eq_one.mp h1
      rw [ha] at hpf ⊢
      rw [List.perm_singleton.mp hpf]
  · intro h0
    rw [aggregateProcess_eq_filter, List.length_eq_zero.mp h0]
    rfl

/-- Witness for `aggregateProcess_amended`: a plain text message node is
accepted by exactly one matcher and produces exactly one event. -/
theorem aggregateProcess_amended_witness :
    (builtinMatchers.filter
      (fun m => matcherMatches m textOnlyNode)).length = 1 ∧
    (aggregateProcess builtinMatchers textOnlyNode).length = 1 ∧
    aggregateProcess builtinMatchers.reverse textOnlyNode =
      aggregateProcess builtinMatchers textOnlyNode := by
  refine ⟨by decide, ((aggregateProcess_amended textOnlyNode).1 (by decide)).1,
    ((aggregateProcess_amended textOnlyNode).1 (by decide)).2
      builtinMatchers.reverse (List.reverse_perm builtinMatchers)⟩

/-- C5: for every inbound `message` node from a sender other than self,
the dispatcher's first action is handing the read receipt to the writer
— before any user-visible event of that node's trace; for every inbound
`notification` node, the first action is handing the mirroring `ack` to
the writer, before its typed group event. -/
theorem acks_precede_emissions (server self : String) (now counter : Nat)
    (authResponse : List Nat → Node) (flushSends : List Node) (n : Node) :
    (n.tag = "message" → (n.attr "from").getD "" ≠ self →
      ∃ rest,
        processNodeActions server self now counter authResponse flushSends n =
          Action.push (createReceiptNode now n) :: rest) ∧
    (n.tag = "notification" →
      ∃ rest,
        processNodeActions server self now counter authResponse flushSends n =
          Action.push (createNotificationAckNode n) :: rest) := by
  constructor
  · intro hm hf
    have he : isError n = false := by simp [isError, hm]
    have hsb : shouldBeReplied n = true := by simp [shouldBeReplied, hm]
    have hn : isNotification n = false := by simp [isNotification, hm]
    simp [processNodeActions, he, hsb, hn, hf]
  · intro hm
    have he : isError n = false := by simp [isError, hm]
    have hsb : shouldBeReplied n = false := by simp [shouldBeReplied, hm]
    have hn : isNotification n = true := by simp [isNotification, hm]
    simp [processNodeActions, he, hsb, hn]

/-- Witness for `acks_precede_emissions`: a concrete inbound text
message and a concrete group-subject notification, processed for a
different self address. -/
theorem acks_precede_emissions_witness :
    (∃ rest,
      processNodeActions "s.whatsapp.net" "49000000000@s.whatsapp.net"
          1700000001 0 (fun _ => Node.node "response" [] [] []) []
          inboundTextNode =
        Action.push (createReceiptNode 1700000001 inboundTextNode) :: rest) ∧
    (∃ rest,
      processNodeActions "s.whatsapp.net" "49000000000@s.whatsapp.net"
          1700000001 0 (fun _ => Node.node "response" [] [] []) []
          inboundNotificationNode =
        Action.push (createNotificationAckNode inboundNotificationNode) ::
          rest) := by
  have h := acks_precede_emissions "s.whatsapp.net"
    "49000000000@s.whatsapp.net" 1700000001 0
    (fun _ => Node.node "response" [] [] []) []
  exact ⟨(h inboundTextNode).1 rfl (by decide), (h inboundNotificationNode).2 rfl⟩

theorem assocGet_cons {β : Type} (it : String × β) (rest : List (String × β))
    (k : String) :
    assocGet (it :: rest) k =
      if it.1 = k then some it.2 else assocGet rest k := by
  unfold assocGet
  by_cases h : it.1 = k
  · simp [List.find?_cons, h]
  · simp [List.find?_cons, h]

theorem assocRemove_cons {β : Type} (it : String × β)
    (rest : List (String × β)) (k : String) :
    assocRemove (it :: rest) k =
      if it.1 = k then assocRemove rest k else it :: assocRemove rest k := by
  unfold assocRemove
  by_cases h : it.1 = k <;> simp [List.filter_cons, h]

theorem assocGet_append {β : Type} (l1 l2 : List (String × β)) (k : String) :
    assocGet (l1 ++ l2) k =
      match assocGet l1 k with
      | some v => some v
      | none => assocGet l2 k := by
  induction l1 with
  | nil => rfl
  | cons it rest ih =>
    rw [List.cons_append, assocGet_cons, assocGet_cons]
    by_cases h : it.1 = k
    · simp [h]
    · simp [h, ih]

theorem assocGet_assocRemove_self {β : Type} (l : List (String × β))
    (k : String) : assocGet (assocRemove l k) k = none := by
  induction l with
  | nil => rfl
  | cons it rest ih =>
    rw [assocRemove_cons]
    by_cases h : it.1 = k
    · simpa [h] using ih
    · rw [if_neg h, assocGet_cons, if_neg h]
      exact ih

theorem assocGet_assocRemove_ne {β : Type} (l : List (String × β))
    (k k2 : String) (h : k ≠ k2) :
    assocGet (assocRemove l k2) k = assocGet l k := by
  induction l with
  | nil => rfl
  | cons it rest ih =>
    rw [assocRemove_cons, assocGet_cons]
    by_cases h1 : it.1 = k2
    · have h2 : ¬(it.1 = k) := by rw [h1]; exact fun hc => h hc.symm
      rw [if_pos h1, if_neg h2]
      exact ih
    · rw [if_neg h1, assocGet_cons]
      by_cases h2 : it.1 = k
      · rw [if_pos h2, if_pos h2]
      · rw [if_neg h2, if_neg h2]
        exact ih

theorem assocGet_assocSet_self {β : Type} (l : List (String × β))
    (k : String) (v : β) : assocGet (assocSet l k v) k = some v := by
  unfold assocSet
  rw [assocGet_append, assocGet_assocRemove_self]
  simp [assocGet_cons]

theorem assocGet_assocSet_ne {β : Type} (l : List (String × β))
    (k k2 : String) (v : β) (h : k ≠ k2) :
    assocGet (assocSet l k2 v) k = assocGet l k := by
  unfold assocSet
  rw [assocGet_append, assocGet_assocRemove_ne l k k2 h]
  cases hg : assocGet l k with
  | some v2 => rfl
  | none =>
    have h2 : ¬(k2 = k) := fun hc => h hc.symm
    rw [assocGet_cons, if_neg h2]
    rfl

/-- Processing one JID leaves every other JID's session, pending queue
and skip flag untouched, and keeps every recorded delivery. -/
theorem processKeyJid_preserves {σ : Type} (mk : PreKeyBundle → σ)
    (bundles : List (String × PreKeyBundle)) (acc : EncState σ)
    (j jid : String) (h : j ≠ jid) :
    assocGet (processKeyJid mk bundles acc j).sessions jid =
      assocGet acc.sessions jid ∧
    assocGet (processKeyJid mk bundles acc j).pendingMessages jid =
      assocGet acc.pendingMessages jid ∧
    ((jid ∈ (processKeyJid mk bundles acc j).skipEncJids) ↔
      jid ∈ acc.skipEncJids) ∧
    (∀ d ∈ acc.deliveries, d ∈ (processKeyJid mk bundles acc j).deliveries) ∧
    (processKeyJid mk bundles acc j).pendingGetKeyRequests =
      acc.pendingGetKeyRequests := by
  have hne : jid ≠ j := fun hc => h hc.symm
  cases hb : assocGet bundles j with
  | none =>
    refine ⟨?_, ?_, ?_, ?_, ?_⟩
    · simp [processKeyJid, hb, processPendingMessages]
    · simp [processKeyJid, hb, processPendingMessages,
        assocGet_assocRemove_ne acc.pendingMessages jid j hne]
    · simp [processKeyJid, hb, processPendingMessages, List.mem_append, hne]
    · intro d hd
      simp [processKeyJid, hb, processPendingMessages, hd]
    · simp [processKeyJid, hb, processPendingMessages]
  | some b =>
    refine ⟨?_, ?_, ?_, ?_, ?_⟩
    · simp [processKeyJid, hb, processPendingMessages,
        assocGet_assocSet_ne acc.sessions jid j (mk b) hne]
    · simp [processKeyJid, hb, processPendingMessages,
        assocGet_assocRemove_ne acc.pendingMessages jid j hne]
    · simp [processKeyJid, hb, processPendingMessages]
    · intro d hd
      simp [processKeyJid, hb, processPendingMessages, hd]
    · simp [processKeyJid, hb, processPendingMessages]

/-- Folding the per-JID processing over JIDs not containing a given JID
preserves that JID's view of the state. -/
theorem foldKeyJids_preserves {σ : Type} (mk : PreKeyBundle → σ)
    (bundles : List (String × PreKeyBundle)) :
    ∀ (jids : List String) (acc : EncState σ) (jid : String), jid ∉ jids →
      assocGet ((jids.foldl (processKeyJid mk bundles) acc)).sessions jid =
        assocGet acc.sessions jid ∧
      assocGet ((jids.foldl (processKeyJid mk bundles) acc)).pendingMessages
          jid = assocGet acc.pendingMessages jid ∧
      ((jid ∈ ((jids.foldl (processKeyJid mk bundles) acc)).skipEncJids) ↔
        jid ∈ acc.skipEncJids) ∧
      (∀ d ∈ acc.deliveries,
        d ∈ ((jids.foldl (processKeyJid mk bundles) acc)).deliveries) ∧
      ((jids.foldl (processKeyJid mk bundles) acc)).pendingGetKeyRequests =
        acc.pendingGetKeyRequests := by
  intro jids
  induction jids with
  | nil =>
    intro acc jid _
    exact ⟨rfl, rfl, Iff.rfl, fun d hd => hd, rfl⟩
  | cons j rest ih =>
    intro acc jid hmem
    have hj : j ≠ jid := fun hc => hmem (by rw [hc]; exact List.mem_cons_self _ _)
    have hrest : jid ∉ rest := fun hc => hmem (List.mem_cons_of_mem _ hc)
    have hstep := processKeyJid_preserves mk bundles acc j jid hj
    have hfold := ih (processKeyJid mk bundles acc j) jid hrest
    simp only [List.foldl_cons]
    exact ⟨hfold.1.trans hstep.1, hfold.2.1.trans hstep.2.1,
      hfold.2.2.1.trans hstep.2.2.1,
      fun d hd => hfold.2.2.2.1 d (hstep.2.2.2.1 d hd),
      hfold.2.2.2.2.trans hstep.2.2.2.2⟩

/-- Processing a JID absent from the response: the JID is marked
skip-encryption, its pending queue is drained, and each pending message
is delivered unencrypted. -/
theorem processKeyJid_self_absent {σ : Type} (mk : PreKeyBundle → σ)
    (bundles : List (String × PreKeyBundle)) (acc : EncState σ)
    (jid : String) (hb : assocGet bundles jid = none) :
    jid ∈ (processKeyJid mk bundles acc jid).skipEncJids ∧
    assocGet (processKeyJid mk bundles acc jid).pendingMessages jid = none ∧
    (∀ m ∈ (assocGet acc.pendingMessages jid).getD [],
      (jid, m, false) ∈ (processKeyJid mk bundles acc jid).deliveries) := by
  refine ⟨?_, ?_, ?_⟩
  · simp [processKeyJid, hb, processPendingMessages]
  · simp [processKeyJid, hb, processPendingMessages,
      assocGet_assocRemove_self acc.pendingMessages jid]
  · intro m hm
    simp only [processKeyJid, hb, processPendingMessages]
    have henc : ((assocGet acc.sessions jid).isSome &&
        !(decide (jid ∈ acc.skipEncJids ++ [jid]))) = false := by
      simp
    rw [henc]
    refine List.mem_append_right _ ?_
    exact List.mem_map.mpr ⟨m, hm, rfl⟩

/-- Processing a JID present in the response: the session built from its
bundle is cached, its pending queue is drained, and (when the JID is not
marked skip-encryption) each pending message is delivered encrypted. -/
theorem processKeyJid_self_present {σ : Type} (mk : PreKeyBundle → σ)
    (bundles : List (String × PreKeyBundle)) (acc : EncState σ)
    (jid : String) (b : PreKeyBundle)
    (hb : assocGet bundles jid = some b)
    (hskip : jid ∉ acc.skipEncJids) :
    assocGet (processKeyJid mk bundles acc jid).sessions jid = some (mk b) ∧
    assocGet (processKeyJid mk bundles acc jid).pendingMessages jid = none ∧
    (∀ m ∈ (assocGet acc.pendingMessages jid).getD [],
      (jid, m, true) ∈ (processKeyJid mk bundles acc jid).deliveries) ∧
    (processKeyJid mk bundles acc jid).skipEncJids = acc.skipEncJids := by
  refine ⟨?_, ?_, ?_, ?_⟩
  · simp [processKeyJid, hb, processPendingMessages,
      assocGet_assocSet_self acc.sessions jid (mk b)]
  · simp [processKeyJid, hb, processPendingMessages,
      assocGet_assocRemove_self acc.pendingMessages jid]
  · intro m hm
    simp only [processKeyJid, hb, processPendingMessages]
    have henc : ((assocGet (assocSet acc.sessions jid (mk b)) jid).isSome &&
        !(decide (jid ∈ acc.skipEncJids))) = true := by
      rw [assocGet_assocSet_self]
      simp [hskip]
    rw [henc]
    refine List.mem_append_right _ ?_
    exact List.mem_map.mpr ⟨m, hm, rfl⟩
  · simp [processKeyJid, hb, processPendingMessages]

/-- The per-JID outcome of folding the response processing over a
duplicate-free request list. -/
theorem foldKeyJids_spec {σ : Type} (mk : PreKeyBundle → σ)
    (bundles : List (String × PreKeyBundle)) :
    ∀ (jids : List String) (acc : EncState σ) (jid : String),
      jid ∈ jids → jids.Nodup → jid ∉ acc.skipEncJids →
      (assocGet bundles jid = none →
        jid ∈ ((jids.foldl (processKeyJid mk bundles) acc)).skipEncJids ∧
        assocGet ((jids.foldl (processKeyJid mk bundles) acc)).pendingMessages
          jid = none ∧
        ∀ m ∈ (assocGet acc.pendingMessages jid).getD [],
          (jid, m, false) ∈
            ((jids.foldl (processKeyJid mk bundles) acc)).deliveries) ∧
      (∀ b, assocGet bundles jid = some b →
        assocGet ((jids.foldl (processKeyJid mk bundles) acc)).sessions jid =
          some (mk b) ∧
        assocGet ((jids.foldl (processKeyJid mk bundles) acc)).pendingMessages
          jid = none ∧
        ∀ m ∈ (assocGet acc.pendingMessages jid).getD [],
          (jid, m, true) ∈
            ((jids.foldl (processKeyJid mk bundles) acc)).deliveries) := by
  intro jids
  induction jids with
  | nil => intro acc jid hmem; exact absurd hmem (List.not_mem_nil _)
  | cons j rest ih =>
    intro acc jid hmem hnodup hskip
    simp only [List.foldl_cons]
    by_cases hj : jid = j
    · subst hj
      have hrest : jid ∉ rest := (List.nodup_cons.mp hnodup).1
      have hfold := foldKeyJids_preserves mk bundles rest
        (processKeyJid mk bundles acc jid) jid hrest
      constructor
      · intro hb
        have hself := processKeyJid_self_absent mk bundles acc jid hb
        exact ⟨hfold.2.2.1.mpr hself.1, hfold.2.1.trans hself.2.1,
          fun m hm => hfold.2.2.2.1 _ (hself.2.2 m hm)⟩
      · intro b hb
        have hself := processKeyJid_self_present mk bundles acc jid b hb hskip
        exact ⟨hfold.1.trans hself.1, hfold.2.1.trans hself.2.1,
          fun m hm => hfold.2.2.2.1 _ (hself.2.2.1 m hm)⟩
    · have hmem2 : jid ∈ rest := by
        cases List.mem_cons.mp hmem with
        | inl hc => exact absurd hc hj
        | inr hr => exact hr
      have hne : j ≠ jid := fun hc => hj hc.symm
      have hstep := processKeyJid_preserves mk bundles acc j jid hne
      have hskip2 : jid ∉ (processKeyJid mk bundles acc j).skipEncJids :=
        fun hc => hskip (hstep.2.2.1.mp hc)
      have hih := ih (processKeyJid mk bundles acc j) jid hmem2
        (List.nodup_cons.mp hnodup).2 hskip2
      rw [hstep.2.1] at hih
      exact hih

/-- Folding the per-JID processing never touches the recorded pre-key
requests. -/
theorem foldKeyJids_pendingReq {σ : Type} (mk : PreKeyBundle → σ)
    (bundles : List (String × PreKeyBundle)) :
    ∀ (jids : List String) (acc : EncState σ),
      ((jids.foldl (processKeyJid mk bundles) acc)).pendingGetKeyRequests =
        acc.pendingGetKeyRequests := by
  intro jids
  induction jids with
  | nil => intro acc; rfl
  | cons j rest ih =>
    intro acc
    simp only [List.foldl_cons]
    rw [ih]
    cases hb : assocGet bundles j <;>
      simp [processKeyJid, hb, processPendingMessages]

/-- C9: `getKeys` records the requested JID set under the IQ id it
sends, together with the `encrypt` fetch carrying one `user` child per
JID; and when the matching `iq result` arrives, every requested JID with
a `user` entry in the response gets the session built from its pre-key
bundle cached, every requested JID absent from the response is marked
skip-encryption with its pending plaintext delivered unencrypted, in
both cases the per-JID pending queue is drained, and the recorded
request is consumed. -/
theorem encryption_bridge_spec {σ : Type} (mk : PreKeyBundle → σ)
    (server : String) (now : Nat) (st st2 : EncState σ)
    (jids : List String) (resp : Node) (jid mid : String) :
    ((getKeys server now st jids).pendingGetKeyRequests =
        st.pendingGetKeyRequests ++
          [((nextMessageId "" now st.counter).1, jids)] ∧
      (getKeys server now st jids).sentNodes = st.sentNodes ++
        [Node.node "iq"
          [("to", server), ("xmlns", "encrypt"), ("type", "get"),
           ("id", (nextMessageId "" now st.counter).1)]
          [Node.node "key" []
            (jids.map (fun j => Node.node "user" [("jid", j)] [] [])) []]
          []]) ∧
    ((resp.attr "id").getD "" = mid →
      assocGet st2.pendingGetKeyRequests mid = some jids →
      jids.Nodup → jid ∈ jids → jid ∉ st2.skipEncJids →
      assocGet (processGetKeysResponse mk st2 resp).pendingGetKeyRequests mid
        = none ∧
      (assocGet (responseBundles resp) jid = none →
        jid ∈ (processGetKeysResponse mk st2 resp).skipEncJids ∧
        assocGet (processGetKeysResponse mk st2 resp).pendingMessages jid =
          none ∧
        ∀ m ∈ (assocGet st2.pendingMessages jid).getD [],
          (jid, m, false) ∈ (processGetKeysResponse mk st2 resp).deliveries) ∧
      (∀ b, assocGet (responseBundles resp) jid = some b →
        assocGet (processGetKeysResponse mk st2 resp).sessions jid =
          some (mk b) ∧
        assocGet (processGetKeysResponse mk st2 resp).pendingMessages jid =
          none ∧
        ∀ m ∈ (assocGet st2.pendingMessages jid).getD [],
          (jid, m, true) ∈ (processGetKeysResponse mk st2 resp).deliveries)) := by
  constructor
  · exact ⟨rfl, rfl⟩
  · intro hid hpend hnodup hmem hskip
    unfold processGetKeysResponse
    simp only [hid, hpend, Option.getD_some]
    set st1 : EncState σ := { st2 with
      pendingGetKeyRequests := assocRemove st2.pendingGetKeyRequests mid }
      with hst1
    have hspec := foldKeyJids_spec mk (responseBundles resp) jids st1 jid
      hmem hnodup (by rw [hst1]; exact hskip)
    refine ⟨?_, hspec.1, hspec.2⟩
    rw [foldKeyJids_pendingReq mk (responseBundles resp) jids st1, hst1]
    exact assocGet_assocRemove_self _ _

/-- Witness for `encryption_bridge_spec`: the spec's scenario 6 — one
requested JID, a response with no `user` entry; the JID is marked
skip-encryption and the pending `"hi"` is delivered unencrypted. -/
theorem encryption_bridge_spec_witness :
    (getKeys "s.whatsapp.net" 1700000000
        (⟨0, [], [], [], [("40000000000@s.whatsapp.net", ["hi"])], [], []⟩ :
          EncState Unit)
        ["40000000000@s.whatsapp.net"]).pendingGetKeyRequests =
      [((nextMessageId "" 1700000000 0).1, ["40000000000@s.whatsapp.net"])] ∧
    ("40000000000@s.whatsapp.net" ∈
      (processGetKeysResponse (fun _ => ())
        (⟨1, [("-1700000000-1", ["40000000000@s.whatsapp.net"])], [], [],
          [("40000000000@s.whatsapp.net", ["hi"])], [], []⟩ : EncState Unit)
        (Node.node "iq"
          [("from", "s.whatsapp.net"), ("id", "-1700000000-1"),
           ("type", "result")]
          [Node.node "list" [] [] []] [])).skipEncJids) ∧
    ("40000000000@s.whatsapp.net", "hi", false) ∈
      (processGetKeysResponse (fun _ => ())
        (⟨1, [("-1700000000-1", ["40000000000@s.whatsapp.net"])], [], [],
          [("40000000000@s.whatsapp.net", ["hi"])], [], []⟩ : EncState Unit)
        (Node.node "iq"
          [("from", "s.whatsapp.net"), ("id", "-1700000000-1"),
           ("type", "result")]
          [Node.node "list" [] [] []] [])).deliveries := by
  have hA := (encryption_bridge_spec (fun _ => ()) "s.whatsapp.net" 1700000000
    (⟨0, [], [], [], [("40000000000@s.whatsapp.net", ["hi"])], [], []⟩ :
      EncState Unit)
    (⟨1, [("-1700000000-1", ["40000000000@s.whatsapp.net"])], [], [],
      [("40000000000@s.whatsapp.net", ["hi"])], [], []⟩ : EncState Unit)
    ["40000000000@s.whatsapp.net"]
    (Node.node "iq"
      [("from", "s.whatsapp.net"), ("id", "-1700000000-1"),
       ("type", "result")]
      [Node.node "list" [] [] []] [])
    "40000000000@s.whatsapp.net" "-1700000000-1")
  have hB := hA.2 rfl rfl (by decide) (by decide) (by decide)
  have habs := hB.2.1 rfl
  refine ⟨by simpa using hA.1.1, habs.1, ?_⟩
  exact habs.2.2 "hi" (by decide)

theorem firstIdx_get :
    ∀ (l : List String) (s : String) (i : Nat),
      firstIdx l s = some i → l.get? i = some s := by
  intro l
  induction l with
  | nil => intro s i h; exact absurd h (by simp [firstIdx])
  | cons x rest ih =>
    intro s i h
    have hcons : firstIdx (x :: rest) s =
        if x = s then some 0 else (firstIdx rest s).map (· + 1) := rfl
    rw [hcons] at h
    by_cases hx : x = s
    · rw [if_pos hx] at h
      cases h
      simp [hx]
    · rw [if_neg hx] at h
      cases hrest : firstIdx rest s with
      | none => rw [hrest] at h; exact absurd h (by simp)
      | some j =>
        rw [hrest] at h
        simp at h
        subst h
        simpa using ih s j hrest

theorem secFind_get :
    ∀ (tables : List (List String)) (s : String) (t j : Nat),
      secFind tables s = some (t, j) →
      ∃ tab, tables.get? t = some tab ∧ tab.get? j = some s := by
  intro tables
  induction tables with
  | nil => intro s t j h; exact absurd h (by simp [secFind])
  | cons tab rest ih =>
    intro s t j h
    have hcons : secFind (tab :: rest) s =
        match firstIdx tab s with
        | some j => some (0, j)
        | none => (secFind rest s).map (fun p => (p.1 + 1, p.2)) := rfl
    rw [hcons] at h
    cases hf : firstIdx tab s with
    | some j2 =>
      rw [hf] at h
      cases h
      exact ⟨tab, by simp, firstIdx_get tab s _ hf⟩
    | none =>
      rw [hf] at h
      cases hrest : secFind rest s with
      | none => rw [hrest] at h; exact absurd h (by simp)
      | some p =>
        rw [hrest] at h
        obtain ⟨tab2, hg1, hg2⟩ := ih s p.1 p.2 hrest
        cases h
        exact ⟨tab2, by simpa using hg1, hg2⟩

theorem readString_cons (d : Dict) (b : Nat) (rest : List Nat) :
    readString d (b :: rest) =
      (if 3 ≤ b ∧ b ≤ 235 then (d.primary.get? b).map (fun s => (s, rest))
       else if 236 ≤ b ∧ b ≤ 243 then
         match rest with
         | j :: rest2 =>
           ((d.secondary.get? (b - 236)).bind (fun t => t.get? j)).map
             (fun s => (s, rest2))
         | [] => none
       else if b = 252 then
         match rest with
         | len :: rest2 =>
           if len ≤ rest2.length then
             some (String.mk ((rest2.take len).map Char.ofNat), rest2.drop len)
           else none
         | [] => none
       else none) := rfl

theorem readString_strLiteral (d : Dict) (s : String) (rest : List Nat) :
    readString d (strLiteral s ++ rest) = some (s, rest) := by
  unfold strLiteral readString
  simp only [List.cons_append]
  rw [if_neg (by omega), if_neg (by omega), if_pos (by trivial)]
  have hlen : (s.data.map Char.toNat).length = s.data.length := by simp
  rw [if_pos (by rw [List.length_append, hlen]; omega)]
  rw [← hlen, List.take_left, List.drop_left]
  have hmap : (s.data.map Char.toNat).map Char.ofNat = s.data := by
    rw [List.map_map]
    calc s.data.map (Char.ofNat ∘ Char.toNat)
        = s.data.map id := List.map_congr_left (fun c _ => Char.ofNat_toNat c)
      _ = s.data := List.map_id _
  rw [hmap]

theorem readString_fallback (d : Dict) (s : String) (rest : List Nat) :
    readString d (encodeStringFallback d s ++ rest) = some (s, rest) := by
  cases hs : secFind d.secondary s with
  | some p =>
    obtain ⟨t, j⟩ := p
    simp only [encodeStringFallback, hs]
    by_cases htj : t ≤ 7 ∧ j ≤ 255
    · rw [if_pos htj]
      show readString d ((236 + t) :: j :: rest) = _
      rw [readString_cons, if_neg (by omega), if_pos (by omega)]
      obtain ⟨tab, hg1, hg2⟩ := secFind_get d.secondary s t j hs
      have harith : 236 + t - 236 = t := by omega
      show ((d.secondary.get? (236 + t - 236)).bind (fun tb => tb.get? j)).map
        (fun s => (s, rest)) = some (s, rest)
      rw [harith, hg1]
      have hg2x : tab[j]? = some s := by simpa using hg2
      simp [hg2x]
    · rw [if_neg htj]
      exact readString_strLiteral d s rest
  | none =>
    simp only [encodeStringFallback, hs]
    exact readString_strLiteral d s rest

theorem readString_encodeString (d : Dict) (s : String) (rest : List Nat) :
    readString d (encodeString d s ++ rest) = some (s, rest) := by
  cases hf : firstIdx d.primary s with
  | some i =>
    simp only [encodeString, hf]
    by_cases hi : 3 ≤ i ∧ i ≤ 235
    · rw [if_pos hi]
      show readString d (i :: rest) = _
      rw [readString_cons, if_pos hi, firstIdx_get d.primary s i hf]
      rfl
    · rw [if_neg hi]
      exact readString_fallback d s rest
  | none =>
    simp only [encodeString, hf]
    exact readString_fallback d s rest

theorem readAttrs_writeAttrs (d : Dict) :
    ∀ (attrs : List (String × String)) (rest : List Nat),
      readAttrs d attrs.length (writeAttrs d attrs ++ rest) =
        some (attrs, rest) := by
  intro attrs
  induction attrs with
  | nil => intro rest; rfl
  | cons p rest2 ih =>
    intro rest
    simp only [List.length_cons, writeAttrs, List.append_assoc]
    show readAttrs d (rest2.length + 1) _ = _
    unfold readAttrs
    simp only [readString_encodeString, ih rest]

theorem readListWith_flatten (w : Node → List Nat)
    (reader : List Nat → Option (Node × List Nat)) :
    ∀ (cs : List Node) (rest : List Nat),
      (∀ c ∈ cs, ∀ r, reader (w c ++ r) = some (c, r)) →
      readListWith reader cs.length ((cs.map w).flatten ++ rest) =
        some (cs, rest) := by
  intro cs
  induction cs with
  | nil => intro rest _; rfl
  | cons c cs2 ih =>
    intro rest hall
    simp only [List.map_cons, List.flatten_cons, List.length_cons,
      List.append_assoc]
    show readListWith reader (cs2.length + 1) _ = _
    unfold readListWith
    simp only [hall c (List.mem_cons_self _ _),
      ih rest (fun c2 hc2 r => hall c2 (List.mem_cons_of_mem _ hc2) r)]

theorem readNodeF_writeNodeF (d : Dict) :
    ∀ (f : Nat) (n : Node), NodeWF f n →
      ∀ rest, readNodeF d f (writeNodeF d f n ++ rest) = some (n, rest) := by
  intro f n h
  induction h with
  | mk f t attrs children payload h1 h2 h3 hch ih =>
    intro rest
    by_cases hc : children.length ≠ 0
    · have hcne : children ≠ [] := by
        intro he; rw [he] at hc; exact hc rfl
      have hp : payload = [] := by
        by_contra hpne
        exact h3 ⟨hcne, hpne⟩
      subst hp
      simp only [writeNodeF, hc, List.length_nil, ne_eq,
        not_true_eq_false, or_false, if_true, List.cons_append,
        List.append_assoc]
      simp only [readNodeF]
      have hdiv2 : (1 + 2 * attrs.length + 1 - 1) / 2 = attrs.length := by
        omega
      have hmod2 : ((1 + 2 * attrs.length + 1 - 1) % 2 = 1) = True :=
        eq_true (by omega)
      simp only [readString_encodeString, not_false_eq_true, if_true, hdiv2,
        hmod2, readAttrs_writeAttrs]
      show (match readListWith (readNodeF d f) children.length
            ((children.map (writeNodeF d f)).flatten ++ rest) with
        | none => none
        | some (cs, rest4) => some (Node.node t attrs cs [], rest4)) =
        some (Node.node t attrs children [], rest)
      rw [readListWith_flatten (writeNodeF d f) (readNodeF d f) children rest
        (fun c hcm r => ih c hcm r)]
    · have hceq : children = [] := by
        by_contra hne
        exact hc (by
          intro hl
          exact hne (List.length_eq_zero.mp hl))
      subst hceq
      by_cases hpl : payload.length ≠ 0
      · simp only [writeNodeF, List.length_nil, ne_eq, not_true_eq_false,
          false_or, hpl, not_false_eq_true, if_true, if_false,
          List.cons_append, List.append_assoc]
        simp only [readNodeF]
        have hdiv2 : (1 + 2 * attrs.length + 1 - 1) / 2 = attrs.length := by
          omega
        have hmod2 : ((1 + 2 * attrs.length + 1 - 1) % 2 = 1) = True :=
          eq_true (by omega)
        simp only [readString_encodeString, not_false_eq_true, if_true, hdiv2,
          hmod2, readAttrs_writeAttrs]
        have hb1 : ((252 : Nat) = 248) = False := eq_false (by omega)
        simp only [hb1, if_false]
        rw [if_pos (by rw [List.length_append]; omega)]
        rw [List.take_left, List.drop_left]
      · have hpeq : payload = [] := by
          by_contra hne
          exact hpl (by
            intro hl
            exact hne (List.length_eq_zero.mp hl))
        subst hpeq
        simp only [writeNodeF, List.length_nil, ne_eq, not_true_eq_false,
          or_self, if_false, List.append_nil, List.cons_append,
          List.append_assoc]
        simp only [readNodeF]
        have hdiv0 : (1 + 2 * attrs.length + 0 - 1) / 2 = attrs.length := by
          omega
        have hmod0 : ((1 + 2 * attrs.length + 0 - 1) % 2 = 1) = False :=
          eq_false (by omega)
        simp only [readString_encodeString, hdiv0, hmod0, readAttrs_writeAttrs,
          if_false]

/-- C7: decoding the bytes the writer produces for a well-formed node
(non-empty tag, unique attribute keys, children or payload but not both)
yields a structurally equal node: same tag, same attributes in the same
order with the same values, same children recursively, and same
payload. -/
theorem codec_roundtrip (d : Dict) (f : Nat) (n : Node) (h : NodeWF f n) :
    readNodeF d f (writeNodeF d f n) = some (n, []) := by
  have hr := readNodeF_writeNodeF d f n h []
  simpa using hr

/-- Witness for `codec_roundtrip`: a concrete message node over a
concrete dictionary. -/
theorem codec_roundtrip_witness :
    readNodeF demoDict 2 (writeNodeF demoDict 2 demoNode) =
      some (demoNode, []) := by
  refine codec_roundtrip demoDict 2 demoNode ?_
  refine NodeWF.mk 1 "message"
    [("to", "31000000000@s.whatsapp.net"), ("type", "text")]
    [Node.node "body" [] [] (strBytes "hello")] []
    (by decide) (by decide) (by simp) ?_
  intro c hcm
  simp only [List.mem_singleton] at hcm
  subst hcm
  refine NodeWF.mk 0 "body" [] [] (strBytes "hello")
    (by decide) (by simp) (by simp) ?_
  intro c hcm
  exact absurd hcm (List.not_mem_nil c)

end NodeWhatsApi

